import Mathlib

set_option maxRecDepth 2000

/-!
Verification development for the EULA document-verification backend.

This file gives a shallow embedding, in Lean 4, of the core of the
`eula` Python backend: the domain models (`eula/domain/models.py`),
the hashing utilities (`eula/domain/hashing.py`), the 3-way-match
validation engine (`eula/domain/validation.py`), the OCR field
normalizer (`eula/services/ocr/normalize.py`), the table detector
(`eula/services/ocr/table.py`) and the smart field extractor
(`eula/services/ocr/extractor.py`), together with theorems that settle
the behavioural claims about those components.

Modelling conventions:
- Python `Decimal` values and `float` confidences are modelled as `ℚ`
  with exact arithmetic (the claims under study never depend on the
  28-significant-digit rounding of `Decimal` division nor on binary
  float rounding).
- Python functions that can raise are modelled with `Except String`;
  functions that never raise are plain Lean functions.
- Python strings are Lean `String` / `List Char`; the regular
  expressions of the source are embedded as explicit backtracking
  matchers with Python's leftmost-greedy preference order.
-/

namespace EULA

/-! ## Python string primitives used by the source

These are implemented over character lists (rather than through the
positional core `String` functions) so that concrete runs reduce
cheaply inside the kernel. -/

/-- Python `\s` (ASCII part). -/
def pyIsSpace (c : Char) : Bool :=
  c == ' ' || c == '\t' || c == '\n' || c == '\r' || c == '\x0b' || c == '\x0c'

/-- Python `str.strip()` (whitespace at both ends). -/
def pyStrip (s : String) : String :=
  String.mk (((s.data.dropWhile pyIsSpace).reverse.dropWhile pyIsSpace).reverse)

/-- Python `str.lower()` (the inputs at stake are ASCII). -/
def pyLower (s : String) : String := String.mk (s.data.map Char.toLower)

/-- Index of the first occurrence of a substring (Python `str.find`),
`none` when absent. -/
def findIdxSub : List Char → List Char → Option Nat
  | needle, [] => if needle.isEmpty then some 0 else none
  | needle, c :: t =>
      if needle.isPrefixOf (c :: t) then some 0
      else (findIdxSub needle t).map (· + 1)

/-- Python `needle in hay` substring test. -/
def pyIn (needle hay : String) : Bool :=
  (findIdxSub needle.data hay.data).isSome

/-- The replacement scan behind `pyReplace`, with fuel bounded by the
text length (each step consumes at least one character). -/
def replaceAux (old new : List Char) : Nat → List Char → List Char
  | _, [] => []
  | 0, s => s
  | f + 1, c :: t =>
      if old.isPrefixOf (c :: t) then
        new ++ replaceAux old new f ((c :: t).drop old.length)
      else
        c :: replaceAux old new f t

/-- Python `str.replace(old, new)`: replace every non-overlapping
occurrence, left to right.  (No call site passes an empty `old`.) -/
def pyReplace (s old new : String) : String :=
  if old.isEmpty then s
  else String.mk (replaceAux old.data new.data s.data.length s.data)

/-- Value of a run of decimal digit characters (Python `int` on digits). -/
def digitsToNat (cs : List Char) : Nat :=
  cs.foldl (fun n c => 10 * n + (c.toNat - '0'.toNat)) 0

/-- Last index of a character in a character list (Python `str.rindex`),
`none` when absent. -/
def lastIdxOf (c : Char) (cs : List Char) : Option Nat :=
  match cs.reverse.findIdx? (· == c) with
  | none => none
  | some i => some (cs.length - 1 - i)

/-! ## Python `Decimal` construction

`Decimal(text)` as used by this code base: an optional sign, an integer
digit run, an optional point with a fraction digit run, with at least one
digit overall and nothing else in the string.  (The exponent and
NaN/Infinity forms of the full `Decimal` grammar never reach these call
sites: every call feeds a string over digits, `.` and an optional sign.)
Parse failure (`InvalidOperation`) is `none`. -/
def pySign (cs : List Char) : ℚ × List Char :=
  match cs with
  | c :: t => if c = '-' then (-1, t) else if c = '+' then (1, t) else (1, cs)
  | [] => (1, [])

/-- The unsigned part of the `Decimal` grammar: an integer digit run,
an optional point with a fraction digit run, at least one digit
overall, nothing trailing. -/
def pyDecimalCore (cs : List Char) : Option ℚ :=
  match cs.dropWhile Char.isDigit with
  | [] =>
      if (cs.takeWhile Char.isDigit).isEmpty then none
      else some (digitsToNat (cs.takeWhile Char.isDigit) : ℚ)
  | '.' :: fracRest =>
      if (fracRest.dropWhile Char.isDigit).isEmpty &&
          (!(cs.takeWhile Char.isDigit).isEmpty ||
            !(fracRest.takeWhile Char.isDigit).isEmpty) then
        some ((digitsToNat (cs.takeWhile Char.isDigit) : ℚ) +
          (digitsToNat (fracRest.takeWhile Char.isDigit) : ℚ) /
            (10 : ℚ) ^ (fracRest.takeWhile Char.isDigit).length)
      else none
  | _ => none

def pyDecimal (s : String) : Option ℚ :=
  (pyDecimalCore (pySign s.data).2).map (fun v => (pySign s.data).1 * v)

/-! ## SHA-256 (`hashlib.sha256`)

An executable FIPS 180-4 SHA-256 over `Nat` bytes, with 32-bit words
reduced mod `2^32` explicitly. -/

/-- Reduce to a 32-bit word. -/
def w32 (n : Nat) : Nat := n % 4294967296

/-- 32-bit modular addition. -/
def add32 (a b : Nat) : Nat := w32 (a + b)

/-- 32-bit right rotation. -/
def rotr32 (r x : Nat) : Nat := w32 ((x >>> r) ||| (x <<< (32 - r)))

/-- The `Ch` function. -/
def sha256Ch (x y z : Nat) : Nat := (x &&& y) ^^^ ((x ^^^ 4294967295) &&& z)

/-- The `Maj` function. -/
def sha256Maj (x y z : Nat) : Nat := ((x &&& y) ^^^ (x &&& z)) ^^^ (y &&& z)

/-- The big Σ₀ function. -/
def bigSigma0 (x : Nat) : Nat := (rotr32 2 x ^^^ rotr32 13 x) ^^^ rotr32 22 x

/-- The big Σ₁ function. -/
def bigSigma1 (x : Nat) : Nat := (rotr32 6 x ^^^ rotr32 11 x) ^^^ rotr32 25 x

/-- The small σ₀ function. -/
def smallSigma0 (x : Nat) : Nat := (rotr32 7 x ^^^ rotr32 18 x) ^^^ (x >>> 3)

/-- The small σ₁ function. -/
def smallSigma1 (x : Nat) : Nat := (rotr32 17 x ^^^ rotr32 19 x) ^^^ (x >>> 10)

/-- The 64 round constants. -/
def K256 : List Nat :=
  [1116352408, 1899447441, 3049323471, 3921009573, 961987163,
   1508970993, 2453635748, 2870763221, 3624381080, 310598401,
   607225278, 1426881987, 1925078388, 2162078206, 2614888103,
   3248222580, 3835390401, 4022224774, 264347078, 604807628,
   770255983, 1249150122, 1555081692, 1996064986, 2554220882,
   2821834349, 2952996808, 3210313671, 3336571891, 3584528711,
   113926993, 338241895, 666307205, 773529912, 1294757372,
   1396182291, 1695183700, 1986661051, 2177026350, 2456956037,
   2730485921, 2820302411, 3259730800, 3345764771, 3516065817,
   3600352804, 4094571909, 275423344, 430227734, 506948616,
   659060556, 883997877, 958139571, 1322822218, 1537002063,
   1747873779, 1955562222, 2024104815, 2227730452, 2361852424,
   2428436474, 2756734187, 3204031479, 3329325298]

/-- The initial hash state. -/
def H256 : List Nat :=
  [1779033703, 3144134277, 1013904242, 2773480762,
   1359893119, 2600822924, 528734635, 1541459225]

/-- Merkle–Damgård padding: a `0x80` byte, zeros to 56 mod 64, then the
bit length as 8 big-endian bytes. -/
def sha256Pad (msg : List Nat) : List Nat :=
  let bitLen := 8 * msg.length
  let padZeros := (119 - msg.length % 64) % 64
  msg ++ [0x80] ++ List.replicate padZeros 0 ++
    [(bitLen >>> 56) % 256, (bitLen >>> 48) % 256, (bitLen >>> 40) % 256,
     (bitLen >>> 32) % 256, (bitLen >>> 24) % 256, (bitLen >>> 16) % 256,
     (bitLen >>> 8) % 256, bitLen % 256]

/-- Split into 64-byte blocks. -/
def chunks64 : List Nat → List (List Nat)
  | [] => []
  | x :: rest => ((x :: rest).take 64) :: chunks64 (rest.drop 63)
  termination_by l => l.length
  decreasing_by simp; omega

/-- Big-endian bytes to 32-bit words. -/
def bytesToWords : List Nat → List Nat
  | b0 :: b1 :: b2 :: b3 :: rest =>
      (((b0 * 256 + b1) * 256 + b2) * 256 + b3) :: bytesToWords rest
  | _ => []

/-- Extend the 16-word block to the 64-word message schedule
(`k` remaining extension steps). -/
def extendTo64 : Nat → List Nat → List Nat
  | 0, ws => ws
  | k + 1, ws =>
      extendTo64 k (ws ++
        [add32 (add32 (smallSigma1 (ws.getD (ws.length - 2) 0))
                      (ws.getD (ws.length - 7) 0))
               (add32 (smallSigma0 (ws.getD (ws.length - 15) 0))
                      (ws.getD (ws.length - 16) 0))])

/-- One compression of a 64-byte block into the running state. -/
def sha256Compress (h : List Nat) (block : List Nat) : List Nat :=
  let ws := extendTo64 48 (bytesToWords block)
  let final := (K256.zip ws).foldl
    (fun st kw =>
      match st with
      | [a, b, c, d, e, f, g, hh] =>
          let t1 := add32 hh (add32 (bigSigma1 e)
            (add32 (sha256Ch e f g) (add32 kw.1 kw.2)))
          let t2 := add32 (bigSigma0 a) (sha256Maj a b c)
          [add32 t1 t2, a, b, c, add32 d t1, e, f, g]
      | st => st)
    h
  (h.zip final).map (fun p => add32 p.1 p.2)

/-- SHA-256 digest of a byte list, as 32 bytes. -/
def sha256Bytes (msg : List Nat) : List Nat :=
  ((chunks64 (sha256Pad msg)).foldl sha256Compress H256).flatMap
    (fun w => [(w >>> 24) % 256, (w >>> 16) % 256, (w >>> 8) % 256, w % 256])

/-- One lowercase hex digit. -/
def hexDigit (n : Nat) : Char := "0123456789abcdef".data.getD n '0'

/-- Lowercase hex encoding of a byte list (`hexdigest()`). -/
def toHexLower (bytes : List Nat) : String :=
  String.mk (bytes.flatMap (fun b => [hexDigit (b / 16), hexDigit (b % 16)]))

/-- UTF-8 encoding (`str.encode()`). -/
def utf8Encode (s : String) : List Nat :=
  s.data.flatMap (fun c =>
    let n := c.toNat
    if n < 0x80 then [n]
    else if n < 0x800 then
      [0xC0 ||| (n >>> 6), 0x80 ||| (n &&& 0x3F)]
    else if n < 0x10000 then
      [0xE0 ||| (n >>> 12), 0x80 ||| ((n >>> 6) &&& 0x3F), 0x80 ||| (n &&& 0x3F)]
    else
      [0xF0 ||| (n >>> 18), 0x80 ||| ((n >>> 12) &&& 0x3F),
       0x80 ||| ((n >>> 6) &&& 0x3F), 0x80 ||| (n &&& 0x3F)])

/-- `hashlib.sha256(bytes).hexdigest()`. -/
def sha256Hex (msg : List Nat) : String := toHexLower (sha256Bytes msg)

/-! ## Bundle hashing (`eula/domain/hashing.py`) -/

/-- Python `sorted` on strings.  Any sorting algorithm yields the same
list here: string order is total and antisymmetric, so the sorted
permutation is unique as a value. -/
def pySorted (l : List String) : List String := l.insertionSort (· ≤ ·)

/-- `compute_bundle_hash`: validate the `"sha256:"` format of the three
document hashes (`ValueError` otherwise), sort them for deterministic
combination, join with `"|"`, and hash the result. -/
def compute_bundle_hash (invoice_hash po_hash pod_hash : String) :
    Except String String :=
  if ¬ invoice_hash.startsWith "sha256:" then
    .error ("Invalid hash format: " ++ invoice_hash)
  else if ¬ po_hash.startsWith "sha256:" then
    .error ("Invalid hash format: " ++ po_hash)
  else if ¬ pod_hash.startsWith "sha256:" then
    .error ("Invalid hash format: " ++ pod_hash)
  else
    .ok ("sha256:" ++ sha256Hex (utf8Encode
      (String.intercalate "|" (pySorted [invoice_hash, po_hash, pod_hash]))))

/-! ## Domain models (`eula/domain/models.py`) -/

/-- Bounding box coordinates from OCR (`models.BoundingBox`); the claims
under study never construct a box violating the coordinate validator, so
only the data is modelled. -/
structure BoundingBox where
  x_min : ℚ
  y_min : ℚ
  x_max : ℚ
  y_max : ℚ
  page : Nat := 0
deriving Repr, DecidableEq

/-- A field extracted from a document via OCR (`models.ExtractedField`). -/
structure ExtractedField (α : Type) where
  value : α
  confidence : ℚ
  bounding_box : Option BoundingBox := none
  raw_text : Option String := none
deriving Repr, DecidableEq

/-- The `requires_review` property: flag if confidence is below the
typical acceptance threshold `0.7`. -/
def ExtractedField.requires_review {α : Type} (f : ExtractedField α) : Bool :=
  decide (f.confidence < 7 / 10)

/-- Constructing an `ExtractedField` runs `__post_init__`, which raises
`ValueError` when the confidence is outside `[0, 1]`. -/
def mkExtractedField {α : Type} (value : α) (confidence : ℚ)
    (bounding_box : Option BoundingBox := none)
    (raw_text : Option String := none) :
    Except String (ExtractedField α) :=
  if 0 ≤ confidence ∧ confidence ≤ 1 then
    .ok ⟨value, confidence, bounding_box, raw_text⟩
  else
    .error "Confidence must be 0-1"

end EULA

namespace EULA

/-! ## Field normalizer (`eula/services/ocr/normalize.py`) -/

/-- The `OCR_CHAR_FIXES` table of common OCR character substitution
errors. -/
def OCR_CHAR_FIXES : List (Char × Char) :=
  [('S', '5'), ('s', '5'), ('O', '0'), ('o', '0'), ('l', '1'),
   ('I', '1'), ('B', '8'), ('Z', '2'), ('g', '9'), ('G', '6')]

/-- The `CURRENCY_SYMBOLS` stripped by amount normalization. -/
def CURRENCY_SYMBOLS : List String :=
  ["$", "€", "£", "¥", "₹", "CHF", "USD", "EUR", "GBP"]

/-- One character through the `OCR_CHAR_FIXES` substitutions. -/
def fixChar (c : Char) : Char := (OCR_CHAR_FIXES.lookup c).getD c

/-- The `_fix_ocr_errors` pass.  The source substitutes inside maximal
runs of the character class `[\dSsOolIBZgG,.\-]`; since every key of
`OCR_CHAR_FIXES` lies in that class (and no replacement digit is itself
a key), the per-run substitution coincides with this character-wise
map: characters outside the class are in no run and are not keys. -/
def fix_ocr_errors (s : String) : String := String.mk (s.data.map fixChar)

/-- The cleaning pipeline of `normalize_amount` up to the `Decimal`
parse: strip, drop currency symbols, strip, fix OCR errors, resolve the
European/US separator ambiguity, then drop every remaining character
other than digits and the decimal point. -/
def amountSeparatorsResolved (text : String) : String :=
  let c0 := pyStrip text
  let c1 := CURRENCY_SYMBOLS.foldl (fun s sym => pyReplace s sym "") c0
  let c2 := pyStrip c1
  let c3 := fix_ocr_errors c2
  if pyIn "," c3 && pyIn "." c3 then
    match lastIdxOf ',' c3.data, lastIdxOf '.' c3.data with
    | some ci, some di =>
        if ci > di then
          -- European format: swap comma and period
          pyReplace (pyReplace c3 "." "") "," "."
        else
          -- US format: remove commas
          pyReplace c3 "," ""
    | _, _ => c3
  else if pyIn "," c3 then
    let parts := c3.splitOn ","
    if parts.length = 2 && (parts.getD 1 "").length = 2 then
      pyReplace c3 "," "."
    else
      pyReplace c3 "," ""
  else c3

/-- The final `re.sub(r"[^\d.]", "", cleaned)` of `normalize_amount`:
every character other than a digit or the decimal point (a minus sign
included) is removed before parsing. -/
def amountCleaned (text : String) : String :=
  String.mk ((amountSeparatorsResolved text).data.filter
    (fun c => c.isDigit || c == '.'))

/-- The soft-error list built inside `normalize_amount`; the source
computes it and logs it, but drops it from the returned field. -/
def normalize_amount_errors (text : String) : List String :=
  match pyDecimal (amountCleaned text) with
  | some value =>
      (if value < 0 then ["Negative amount detected"] else []) ++
      (if value > 1000000000 then ["Unusually large amount"] else [])
  | none => ["Parse error"]

/-- The value carried by the field `normalize_amount` returns: the
parsed `Decimal`, or `Decimal("0")` on `InvalidOperation`. -/
def amountValue (text : String) : ℚ :=
  (pyDecimal (amountCleaned text)).getD 0

/-- `FieldNormalizer.normalize_amount`: parse a monetary amount;
on `InvalidOperation` the value falls back to `Decimal("0")` and the
field still carries the caller's confidence and the raw text. -/
def normalize_amount (text : String) (confidence : ℚ)
    (bounding_box : Option BoundingBox) :
    Except String (ExtractedField ℚ) :=
  mkExtractedField (amountValue text) confidence bounding_box (some text)

/-- The anchored `re.match(r"[\d,]+\.?\d*", cleaned)` of
`normalize_quantity`: a maximal run of digits/commas, an optional
point, a maximal digit run; each later piece may be empty, so the
greedy parse is deterministic. -/
def quantityNumericRun (cs : List Char) : Option (List Char) :=
  let isRun : Char → Bool := fun c => c.isDigit || c == ','
  let run1 := cs.takeWhile isRun
  if run1.isEmpty then none
  else
    match cs.dropWhile isRun with
    | '.' :: rest2 => some (run1 ++ '.' :: rest2.takeWhile Char.isDigit)
    | _ => some run1

/-- The cleaning pipeline of `normalize_quantity`: strip and fix OCR
errors, keep the leading numeric run when one exists, then drop
thousands separators. -/
def quantityCleaned (text : String) : String :=
  pyReplace
    (match quantityNumericRun (fix_ocr_errors (pyStrip text)).data with
     | some run => String.mk run
     | none => fix_ocr_errors (pyStrip text))
    "," ""

/-- The value carried by the field `normalize_quantity` returns:
negatives are clamped to their absolute value, parse failure falls back
to `Decimal("0")`. -/
def quantityValue (text : String) : ℚ :=
  match pyDecimal (quantityCleaned text) with
  | some v => if v < 0 then |v| else v
  | none => 0

/-- `FieldNormalizer.normalize_quantity`: take the leading numeric run
(when one exists), drop thousands separators, parse; clamp negatives to
their absolute value; parse failure falls back to `Decimal("0")` with
the caller's confidence. -/
def normalize_quantity (text : String) (confidence : ℚ)
    (bounding_box : Option BoundingBox) :
    Except String (ExtractedField ℚ) :=
  mkExtractedField (quantityValue text) confidence bounding_box (some text)

/-! ## Dates

Python `datetime.date` values and the calendar validation its
constructor performs. -/

/-- Gregorian leap year. -/
def isLeapYear (y : Nat) : Bool := (y % 4 == 0 && y % 100 != 0) || y % 400 == 0

/-- Days in a month. -/
def daysInMonth (y m : Nat) : Nat :=
  if m = 2 then (if isLeapYear y then 29 else 28)
  else if m = 4 ∨ m = 6 ∨ m = 9 ∨ m = 11 then 30
  else 31

/-- A Python `datetime.date`. -/
structure Date where
  year : Nat
  month : Nat
  day : Nat
deriving Repr, DecidableEq

/-- Validity as enforced by the `date` constructor (`MINYEAR = 1`,
`MAXYEAR = 9999`, day within the month). -/
def validDate (y m d : Nat) : Bool :=
  1 ≤ y && y ≤ 9999 && 1 ≤ m && m ≤ 12 && 1 ≤ d && d ≤ daysInMonth y m

/-- `date(y, m, d)`: `none` models the `ValueError` on invalid input. -/
def mkDate (y m d : Nat) : Option Date :=
  if validDate y m d then some ⟨y, m, d⟩ else none

/-- Python date comparison is lexicographic on (year, month, day). -/
def Date.ltb (a b : Date) : Bool :=
  a.year < b.year ||
    (a.year == b.year &&
      (a.month < b.month || (a.month == b.month && a.day < b.day)))

/-- Days since the civil epoch 1970-01-01 (the standard civil-calendar
algorithm); all intermediate divisions act on non-negative values for
valid dates, so truncating division is exact here. -/
def daysFromCivil (dt : Date) : Int :=
  let y : Int := if dt.month ≤ 2 then (dt.year : Int) - 1 else (dt.year : Int)
  let era : Int := (if 0 ≤ y then y else y - 399) / 400
  let yoe : Int := y - era * 400
  let doy : Int :=
    (153 * ((dt.month : Int) + (if 2 < dt.month then -3 else 9)) + 2) / 5 +
      (dt.day : Int) - 1
  let doe : Int := yoe * 365 + yoe / 4 - yoe / 100 + doy
  era * 146097 + doe - 719468

/-- Python `(a - b).days` for dates. -/
def daysBetween (a b : Date) : Int := daysFromCivil a - daysFromCivil b

/-! ## Business documents (`eula/domain/models.py`) -/

/-- A rendering of a `Decimal` into message text (`str(x)` /
`f"{x}"`).  Modelling note: Python's `Decimal` remembers its scale, so
`str` may print trailing zeros (`"6000.00"`); the rational rendering
here differs only in such zeros, which no claim observes — the claims
about messages distinguish the fixed message templates, not the digit
strings. -/
def qStr (q : ℚ) : String :=
  if q.den = 1 then toString q.num
  else toString q.num ++ "/" ++ toString q.den

/-- The `f"{v * 100:.1f}%"` percent rendering (same modelling note as
`qStr`: the claims observe the template, not the rounding). -/
def pctStr (v : ℚ) : String := qStr (v * 100) ++ "%"

/-- The `f"{ratio:.0%}"` percent rendering. -/
def pct0Str (v : ℚ) : String := qStr (v * 100) ++ "%"

/-- Zero-padded two-digit rendering. -/
def pad2 (n : Nat) : String :=
  if n < 10 then "0" ++ toString n else toString n

/-- Zero-padded four-digit rendering. -/
def pad4 (n : Nat) : String :=
  if n < 10 then "000" ++ toString n
  else if n < 100 then "00" ++ toString n
  else if n < 1000 then "0" ++ toString n
  else toString n

/-- Python `str(date)`: ISO `YYYY-MM-DD`. -/
def dateStr (d : Date) : String :=
  pad4 d.year ++ "-" ++ pad2 d.month ++ "-" ++ pad2 d.day

/-- A single invoice line item (`models.LineItem`). -/
structure LineItem where
  description : ExtractedField String
  quantity : ExtractedField ℚ
  unit_price : ExtractedField ℚ
  total : ExtractedField ℚ
deriving Repr, DecidableEq

/-- Expected total from quantity × unit price. -/
def LineItem.calculated_total (li : LineItem) : ℚ :=
  li.quantity.value * li.unit_price.value

/-- Whether the stated total deviates from quantity × unit price by
more than one cent. -/
def LineItem.has_math_error (li : LineItem) : Bool :=
  decide (|li.calculated_total - li.total.value| > 1 / 100)

/-- `models.Invoice`. -/
structure Invoice where
  invoice_number : ExtractedField String
  total_amount : ExtractedField ℚ
  currency : ExtractedField String
  invoice_date : ExtractedField Date
  due_date : ExtractedField Date
  payee_name : ExtractedField String
  payer_name : ExtractedField String
  line_items : List LineItem := []
deriving Repr, DecidableEq

/-- Sum of all line item quantities. -/
def Invoice.total_quantity (inv : Invoice) : ℚ :=
  (inv.line_items.map (fun i => i.quantity.value)).sum

/-- Sum of all line item totals. -/
def Invoice.calculated_total (inv : Invoice) : ℚ :=
  (inv.line_items.map (fun i => i.total.value)).sum

/-- `models.PurchaseOrder`. -/
structure PurchaseOrder where
  po_number : ExtractedField String
  authorized_amount : ExtractedField ℚ
  currency : ExtractedField String
  po_date : ExtractedField Date
  buyer_name : ExtractedField String
  vendor_name : ExtractedField String
  line_items : List LineItem := []
deriving Repr, DecidableEq

/-- `models.ProofOfDelivery`. -/
structure ProofOfDelivery where
  delivery_reference : ExtractedField String
  quantity_delivered : ExtractedField ℚ
  delivery_date : ExtractedField Date
  recipient_name : ExtractedField String
  recipient_signature : Bool := false
  po_reference : Option (ExtractedField String) := none
deriving Repr, DecidableEq

/-- `models.DocumentBundle`. -/
structure DocumentBundle where
  invoice : Invoice
  purchase_order : PurchaseOrder
  proof_of_delivery : ProofOfDelivery
  invoice_hash : Option String := none
  po_hash : Option String := none
  pod_hash : Option String := none
deriving Repr, DecidableEq

/-- `models.ValidationCheck`; the `details` dict is modelled as a key /
optional-rendered-value list (a value of `None` is `none`). -/
structure ValidationCheck where
  rule_name : String
  passed : Bool
  message : String
  details : List (String × Option String) := []
deriving Repr, DecidableEq

/-- `models.Anomaly`. -/
structure Anomaly where
  code : String
  message : String
  severity : String
  field_path : String
  expected_value : Option String := none
  actual_value : Option String := none
deriving Repr, DecidableEq

/-- `models.VerificationStatus`. -/
inductive VerificationStatus : Type
  | pending : VerificationStatus
  | processing : VerificationStatus
  | passed : VerificationStatus
  | failed : VerificationStatus
  | requires_review : VerificationStatus
deriving Repr, DecidableEq

/-- `models.VerificationResult`. -/
structure VerificationResult where
  status : VerificationStatus
  checks : List ValidationCheck := []
  anomalies : List Anomaly := []
  review_flags : List String := []
deriving Repr, DecidableEq

/-! ## Validation engine (`eula/domain/validation.py`) -/

/-- Tolerance for decimal comparisons. -/
def DECIMAL_TOLERANCE : ℚ := 1 / 100

/-- Threshold for anomaly detection (500% of historical average). -/
def ANOMALY_MULTIPLIER : ℚ := 5

/-- Maximum allowed variance between invoice and PO amounts (20%). -/
def AMOUNT_VARIANCE_TOLERANCE : ℚ := 20 / 100

/-- `validate_quantity_match`: delivered vs billed quantity within
tolerance; auto-pass when the invoice has no line items. -/
def validate_quantity_match (pod : ProofOfDelivery) (invoice : Invoice) :
    ValidationCheck :=
  if invoice.line_items.isEmpty then
    ⟨"quantity_match", true, "Quantity match: OK", []⟩
  else
    let pod_qty := pod.quantity_delivered.value
    let invoice_qty := invoice.total_quantity
    let diff := |pod_qty - invoice_qty|
    let passed := decide (diff ≤ DECIMAL_TOLERANCE)
    ⟨"quantity_match", passed,
      if passed then "Quantity matches"
      else "Quantity mismatch: delivered " ++ qStr pod_qty ++ " vs billed " ++
        qStr invoice_qty,
      [("pod_quantity", some (qStr pod_qty)),
       ("invoice_quantity", some (qStr invoice_qty)),
       ("difference", some (qStr diff))]⟩

/-- The currency-mismatch message of `validate_amount_authorization`. -/
def currencyMismatchMessage (ic pc : String) : String :=
  "Currency mismatch: Invoice " ++ ic ++ " vs PO " ++ pc

/-- The exceeds-PO message of `validate_amount_authorization`. -/
def exceedsPOMessage (invoice_total authorized_amount : ℚ) : String :=
  "Invoice $" ++ qStr invoice_total ++ " exceeds authorized PO $" ++
    qStr authorized_amount

/-- The excessive-variance message of `validate_amount_authorization`. -/
def amountMismatchMessage (invoice_total authorized_amount variance : ℚ) :
    String :=
  "Amount mismatch: Invoice $" ++ qStr invoice_total ++ " vs PO $" ++
    qStr authorized_amount ++ " (" ++ pctStr variance ++ " variance)"

/-- The pass message of `validate_amount_authorization`. -/
def amountOkMessage (invoice_total authorized_amount : ℚ) : String :=
  "Invoice $" ++ qStr invoice_total ++ " matches authorized PO $" ++
    qStr authorized_amount

/-- The relative variance `|invoice − PO| / PO`, taken as `0` when the
authorized amount is not positive. -/
def amountVariance (invoice_total authorized_amount : ℚ) : ℚ :=
  if authorized_amount > 0 then
    |invoice_total - authorized_amount| / authorized_amount
  else 0

/-- `validate_amount_authorization`: hard fail on currency mismatch;
then fail when the invoice exceeds the authorized amount beyond
tolerance; then fail on excessive relative variance; else pass. -/
def validate_amount_authorization (invoice : Invoice) (po : PurchaseOrder) :
    ValidationCheck :=
  if invoice.currency.value ≠ po.currency.value then
    ⟨"amount_authorization", false,
      currencyMismatchMessage invoice.currency.value po.currency.value,
      [("invoice_currency", some invoice.currency.value),
       ("po_currency", some po.currency.value)]⟩
  else if invoice.total_amount.value >
      po.authorized_amount.value + DECIMAL_TOLERANCE then
    ⟨"amount_authorization", false,
      exceedsPOMessage invoice.total_amount.value po.authorized_amount.value,
      [("invoice_total", some (qStr invoice.total_amount.value)),
       ("authorized_amount", some (qStr po.authorized_amount.value)),
       ("variance_pct", some (pctStr (amountVariance invoice.total_amount.value
         po.authorized_amount.value)))]⟩
  else if amountVariance invoice.total_amount.value po.authorized_amount.value >
      AMOUNT_VARIANCE_TOLERANCE then
    ⟨"amount_authorization", false,
      amountMismatchMessage invoice.total_amount.value
        po.authorized_amount.value
        (amountVariance invoice.total_amount.value po.authorized_amount.value),
      [("invoice_total", some (qStr invoice.total_amount.value)),
       ("authorized_amount", some (qStr po.authorized_amount.value)),
       ("variance_pct", some (pctStr (amountVariance invoice.total_amount.value
         po.authorized_amount.value))),
       ("max_allowed_variance", some (pctStr AMOUNT_VARIANCE_TOLERANCE)),
       ("note", some "Invoice and PO amounts should match within tolerance")]⟩
  else
    ⟨"amount_authorization", true,
      amountOkMessage invoice.total_amount.value po.authorized_amount.value,
      [("invoice_total", some (qStr invoice.total_amount.value)),
       ("authorized_amount", some (qStr po.authorized_amount.value)),
       ("variance_pct", some (pctStr (amountVariance invoice.total_amount.value
         po.authorized_amount.value)))]⟩

/-- `validate_date_sequence`: PO date ≤ delivery date ≤ invoice date;
each violated ordering contributes a message. -/
def validate_date_sequence (po : PurchaseOrder) (pod : ProofOfDelivery)
    (invoice : Invoice) : ValidationCheck :=
  let po_date := po.po_date.value
  let pod_date := pod.delivery_date.value
  let invoice_date := invoice.invoice_date.value
  let errors :=
    (if Date.ltb pod_date po_date then
      ["PO date (" ++ dateStr po_date ++ ") is after delivery date (" ++
        dateStr pod_date ++ ")"]
     else []) ++
    (if Date.ltb invoice_date pod_date then
      ["Delivery date (" ++ dateStr pod_date ++ ") is after invoice date (" ++
        dateStr invoice_date ++ ")"]
     else [])
  ⟨"date_sequence", errors.isEmpty,
    if errors.isEmpty then "Date sequence valid"
    else String.intercalate "; " errors,
    [("po_date", some (dateStr po_date)),
     ("pod_date", some (dateStr pod_date)),
     ("invoice_date", some (dateStr invoice_date))]⟩

/-- `validate_line_item_sum`: line-item totals must sum to the stated
invoice total within tolerance; skipped when there are no line items. -/
def validate_line_item_sum (invoice : Invoice) : ValidationCheck :=
  if invoice.line_items.isEmpty then
    ⟨"line_item_sum", true, "No line items to validate",
      [("note", some "Skipped - no line items present")]⟩
  else
    let calculated := invoice.calculated_total
    let stated := invoice.total_amount.value
    let diff := |calculated - stated|
    let passed := decide (diff ≤ DECIMAL_TOLERANCE)
    ⟨"line_item_sum", passed,
      if passed then
        "Line items sum to " ++ qStr calculated ++ ", matches total " ++
          qStr stated
      else
        "Sum mismatch: line items = " ++ qStr calculated ++
          ", stated total = " ++ qStr stated,
      [("calculated_sum", some (qStr calculated)),
       ("stated_total", some (qStr stated)),
       ("difference", some (qStr diff)),
       ("line_item_count", some (toString invoice.line_items.length))]⟩

/-- The name normalizer inside `validate_party_names`: lowercase,
strip, drop common company suffixes, drop common OCR artifacts,
strip. -/
def partyNormalize (name : String) : String :=
  let n0 := pyStrip (pyLower name)
  let n1 := [" pte ltd", " pte. ltd.", " pte", " ltd", " inc", " corp",
             " llc", "."].foldl (fun s suf => pyReplace s suf "") n0
  let n2 := ["p.o.", "po-", "stamp", "company"].foldl
    (fun s a => pyReplace s a "") n1
  pyStrip n2

/-- Python `str.split()` with no argument: split on whitespace runs,
dropping empty pieces. -/
def pySplitWs (s : String) : List String :=
  (s.split Char.isWhitespace).filter (fun w => ¬ w.isEmpty)

/-- The fuzzy name matcher inside `validate_party_names`. -/
def fuzzy_match (name1 name2 : String) : Bool :=
  let n1 := partyNormalize name1
  let n2 := partyNormalize name2
  if n1.isEmpty || n2.isEmpty || n1 == "unknown" || n2 == "unknown" then
    true
  else if n1 == n2 then true
  else if pyIn n1 n2 || pyIn n2 n1 then true
  else
    let words1 := pySplitWs n1
    let words2 := pySplitWs n2
    (words1.filter (fun w => words2.contains w)).any
      (fun w => w.length > 3)

/-- `validate_party_names`: invoice payee vs PO vendor, invoice payer
vs PO buyer, fuzzily. -/
def validate_party_names (bundle : DocumentBundle) : ValidationCheck :=
  let invoice_payee := bundle.invoice.payee_name.value
  let po_vendor := bundle.purchase_order.vendor_name.value
  let invoice_payer := bundle.invoice.payer_name.value
  let po_buyer := bundle.purchase_order.buyer_name.value
  let warnings :=
    (if ¬ fuzzy_match invoice_payee po_vendor then
      ["Payee mismatch: Invoice '" ++ invoice_payee ++ "' vs PO vendor '" ++
        po_vendor ++ "'"]
     else []) ++
    (if ¬ fuzzy_match invoice_payer po_buyer then
      ["Payer mismatch: Invoice '" ++ invoice_payer ++ "' vs PO buyer '" ++
        po_buyer ++ "'"]
     else [])
  ⟨"party_names", warnings.isEmpty,
    if warnings.isEmpty then "Party names consistent"
    else String.intercalate "; " warnings,
    [("invoice_payee", some invoice_payee),
     ("po_vendor", some po_vendor),
     ("invoice_payer", some invoice_payer),
     ("po_buyer", some po_buyer),
     ("note",
       if warnings.isEmpty then none
       else some "Fuzzy matching enabled for OCR tolerance")]⟩

/-- `detect_anomalies`: amount spike vs historical average, unusually
long payment term, line-item math errors — all severity `"warning"`. -/
def detect_anomalies (invoice : Invoice) (historical_average : Option ℚ) :
    List Anomaly :=
  (match historical_average with
   | some ha =>
       if ha > 0 then
         if invoice.total_amount.value / ha > ANOMALY_MULTIPLIER then
           [⟨"AMOUNT_SPIKE",
             "Invoice " ++ pct0Str (invoice.total_amount.value / ha) ++
               " larger than historical average",
             "warning", "invoice.total_amount",
             some (qStr ha), some (qStr invoice.total_amount.value)⟩]
         else []
       else []
   | none => []) ++
  (if Date.ltb invoice.invoice_date.value invoice.due_date.value then
    if daysBetween invoice.due_date.value invoice.invoice_date.value > 180 then
      [⟨"LONG_TERM",
        "Unusually long payment term: " ++
          toString (daysBetween invoice.due_date.value
            invoice.invoice_date.value) ++ " days",
        "warning", "invoice.due_date",
        some "< 180 days",
        some (toString (daysBetween invoice.due_date.value
          invoice.invoice_date.value) ++ " days")⟩]
    else []
   else []) ++
  (invoice.line_items.enum.filterMap (fun p =>
    if p.2.has_math_error then
      some ⟨"LINE_ITEM_MATH",
        "Line item " ++ toString (p.1 + 1) ++ ": qty * price != total",
        "warning", "invoice.line_items[" ++ toString p.1 ++ "]",
        some (qStr p.2.calculated_total), some (qStr p.2.total.value)⟩
    else none))

/-- `collect_review_flags`: the fixed set of critical fields whose
confidence falls below the threshold, in source order. -/
def collect_review_flags (bundle : DocumentBundle)
    (confidence_threshold : ℚ) : List String :=
  (if bundle.invoice.total_amount.confidence < confidence_threshold then
    ["invoice.total_amount"] else []) ++
  (if bundle.invoice.invoice_number.confidence < confidence_threshold then
    ["invoice.invoice_number"] else []) ++
  (if bundle.purchase_order.authorized_amount.confidence <
      confidence_threshold then
    ["purchase_order.authorized_amount"] else []) ++
  (if bundle.purchase_order.po_number.confidence < confidence_threshold then
    ["purchase_order.po_number"] else []) ++
  (if bundle.proof_of_delivery.quantity_delivered.confidence <
      confidence_threshold then
    ["proof_of_delivery.quantity_delivered"] else []) ++
  (if bundle.proof_of_delivery.delivery_date.confidence <
      confidence_threshold then
    ["proof_of_delivery.delivery_date"] else [])

/-- The five checks of `run_full_verification`, in execution order. -/
def verificationChecks (bundle : DocumentBundle) : List ValidationCheck :=
  [validate_quantity_match bundle.proof_of_delivery bundle.invoice,
   validate_amount_authorization bundle.invoice bundle.purchase_order,
   validate_date_sequence bundle.purchase_order bundle.proof_of_delivery
     bundle.invoice,
   validate_line_item_sum bundle.invoice,
   validate_party_names bundle]

/-- The status decision at the end of `run_full_verification`. -/
def overallStatus (checks : List ValidationCheck) (anomalies : List Anomaly)
    (review_flags : List String) : VerificationStatus :=
  if !(checks.all (fun c => c.passed)) ||
      anomalies.any (fun a => a.severity == "error") then
    .failed
  else if review_flags.length > 0 then
    .requires_review
  else
    .passed

/-- `run_full_verification`: run the five rules, detect anomalies,
collect review flags, decide the overall status. -/
def run_full_verification (bundle : DocumentBundle)
    (historical_average : Option ℚ) (confidence_threshold : ℚ) :
    VerificationResult :=
  ⟨overallStatus (verificationChecks bundle)
      (detect_anomalies bundle.invoice historical_average)
      (collect_review_flags bundle confidence_threshold),
    verificationChecks bundle,
    detect_anomalies bundle.invoice historical_average,
    collect_review_flags bundle confidence_threshold⟩

/-! ## A backtracking regular-expression engine

The source matches fixed regular expressions with CPython's `re`
module.  The fragment those patterns use — character classes,
concatenation, alternation and greedy repetition — is embedded here
with CPython's backtracking preference order (greedy, leftmost
alternative first). -/

/-- Regular expressions over the fragment the source uses. -/
inductive RE : Type
  | eps : RE
  | cls : (Char → Bool) → RE
  | cat : RE → RE → RE
  | alt : RE → RE → RE
  | star : RE → RE

/-- Structural size of a regex (used to budget the matcher's fuel). -/
def reSize : RE → Nat
  | .eps => 1
  | .cls _ => 1
  | .cat a b => reSize a + reSize b + 1
  | .alt a b => reSize a + reSize b + 1
  | .star a => reSize a + 1

/-- All ways a regex can match a prefix of `s`, listed as the leftover
remainders in the backtracking engine's preference order (greedy, first
alternative first).  The recursion is structural on `fuel`, which every
call decrements; each star unrolling is restricted to consume at least
one character, so the budget `reFuel` below always suffices. -/
def reMatches : Nat → RE → List Char → List (List Char)
  | 0, _, _ => []
  | _ + 1, .eps, s => [s]
  | _ + 1, .cls _, [] => []
  | _ + 1, .cls p, c :: s => if p c then [s] else []
  | f + 1, .cat a b, s => (reMatches f a s).flatMap (fun r => reMatches f b r)
  | f + 1, .alt a b, s => reMatches f a s ++ reMatches f b s
  | f + 1, .star a, s =>
      ((reMatches f a s).filter (fun r => r.length < s.length)).flatMap
        (fun r => reMatches f (.star a) r) ++ [s]

/-- A fuel budget sufficient for `reMatches`: the recursion descends
the regex structure (at most `reSize` levels) once per character a star
iteration consumes. -/
def reFuel (re : RE) (s : List Char) : Nat :=
  (reSize re + 1) * (s.length + 1)

/-- Character class matching a single given character. -/
def REchar (c : Char) : RE := .cls (fun x => x == c)

/-- Case-insensitive single character (the `re.IGNORECASE` flag). -/
def REci (c : Char) : RE := .cls (fun x => x == c.toLower || x == c.toUpper)

/-- Literal word, case-insensitively. -/
def REstrCI (s : String) : RE := s.data.foldr (fun c r => .cat (REci c) r) .eps

/-- The `\d` class (the inputs at stake are ASCII). -/
def REdigit : RE := .cls Char.isDigit

/-- Greedy `?`. -/
def REopt (a : RE) : RE := .alt a .eps

/-- Greedy `+`. -/
def REplus (a : RE) : RE := .cat a (.star a)

/-- Ordered alternation of a list of alternatives. -/
def REaltList (l : List RE) : RE := l.foldr .alt (.cls (fun _ => false))

/-- Joint backtracking across a sequence of regex pieces anchored at the
start of `s`, in the engine's preference order; returns the segment each
piece consumed and the remainder of the preferred parse. -/
def chainMatch : List RE → List Char → Option (List (List Char) × List Char)
  | [], s => some ([], s)
  | p :: ps, s =>
      (reMatches (reFuel p s) p s).findSome? (fun r =>
        (chainMatch ps r).map (fun res =>
          (s.take (s.length - r.length) :: res.1, res.2)))

/-- `re.search` over a piece sequence: the match at the leftmost
position where one exists, with the preferred parse there. -/
def chainSearch (ps : List RE) : List Char → Option (List (List Char) × List Char)
  | [] => chainMatch ps []
  | c :: t =>
      match chainMatch ps (c :: t) with
      | some r => some r
      | none => chainSearch ps t

/-- `re.finditer` over a piece sequence: non-overlapping matches left to
right, each reported as its per-piece segments; scanning resumes at each
match end (one past it for an empty match, as in CPython). -/
def chainFindIter (ps : List RE) : Nat → List Char → List (List (List Char))
  | 0, _ => []
  | f + 1, s =>
      match chainMatch ps s with
      | some (segs, rest) =>
          if rest.length < s.length then segs :: chainFindIter ps f rest
          else
            segs ::
              (match s with
               | [] => []
               | _ :: t => chainFindIter ps f t)
      | none =>
          match s with
          | [] => []
          | _ :: t => chainFindIter ps f t

/-! ## `normalize_date`: strptime formats and the loose fallback -/

/-- CPython `TimeRE` pattern for `%d`: `3[01]|[12]\d|0[1-9]|[1-9]`. -/
def REday2 : RE :=
  .alt (.cat (REchar '3') (.cls (fun c => c == '0' || c == '1')))
    (.alt (.cat (.cls (fun c => c == '1' || c == '2')) REdigit)
      (.alt (.cat (REchar '0') (.cls (fun c => c.isDigit && c != '0')))
        (.cls (fun c => c.isDigit && c != '0'))))

/-- CPython `TimeRE` pattern for `%m`: `1[0-2]|0[1-9]|[1-9]`. -/
def REmonth2 : RE :=
  .alt (.cat (REchar '1') (.cls (fun c => c == '0' || c == '1' || c == '2')))
    (.alt (.cat (REchar '0') (.cls (fun c => c.isDigit && c != '0')))
      (.cls (fun c => c.isDigit && c != '0')))

/-- CPython `TimeRE` pattern for `%Y`: exactly four digits. -/
def REyear4 : RE := .cat REdigit (.cat REdigit (.cat REdigit REdigit))

/-- Abbreviated month names, in `calendar.month_abbr` order. -/
def MONTH_ABBRS : List String :=
  ["jan", "feb", "mar", "apr", "may", "jun",
   "jul", "aug", "sep", "oct", "nov", "dec"]

/-- Full month names, sorted longest first (stable), as CPython's
`TimeRE.__seqToRE` orders its alternation. -/
def MONTH_NAMES : List String :=
  ["september", "february", "november", "december", "january", "october",
   "august", "march", "april", "june", "july", "may"]

/-- Month name (either form, lowercased) to month number. -/
def monthByName (seg : List Char) : Option Nat :=
  List.lookup (String.toLower (String.mk seg))
    [("jan", 1), ("feb", 2), ("mar", 3), ("apr", 4), ("may", 5), ("jun", 6),
     ("jul", 7), ("aug", 8), ("sep", 9), ("oct", 10), ("nov", 11), ("dec", 12),
     ("january", 1), ("february", 2), ("march", 3), ("april", 4),
     ("june", 6), ("july", 7), ("august", 8), ("september", 9),
     ("october", 10), ("november", 11), ("december", 12)]

/-- One directive or literal of a strptime format string. -/
inductive FmtTok : Type
  | Y : FmtTok
  | m : FmtTok
  | d : FmtTok
  | b : FmtTok
  | B : FmtTok
  | lit : Char → FmtTok
  | ws : FmtTok
deriving Repr

/-- The regex a format token compiles to (whitespace in a format
matches `\s+`; month names match case-insensitively). -/
def tokRE : FmtTok → RE
  | .Y => REyear4
  | .m => REmonth2
  | .d => REday2
  | .b => REaltList (MONTH_ABBRS.map REstrCI)
  | .B => REaltList (MONTH_NAMES.map REstrCI)
  | .lit c => REchar c
  | .ws => REplus (.cls pyIsSpace)

/-- Collect year/month/day from the matched segments of a format. -/
def ymdOfSegs : List (FmtTok × List Char) →
    Option Nat × Option Nat × Option Nat →
    Option Nat × Option Nat × Option Nat
  | [], acc => acc
  | (t, seg) :: rest, (y, m, d) =>
      match t with
      | .Y => ymdOfSegs rest (some (digitsToNat seg), m, d)
      | .m => ymdOfSegs rest (y, some (digitsToNat seg), d)
      | .d => ymdOfSegs rest (y, m, some (digitsToNat seg))
      | .b => ymdOfSegs rest (y, monthByName seg, d)
      | .B => ymdOfSegs rest (y, monthByName seg, d)
      | _ => ymdOfSegs rest (y, m, d)

/-- `datetime.strptime(s, fmt).date()` for one format: the compiled
regex must match at position 0 (preferred parse) and consume the whole
string, and the resulting calendar date must be constructible. -/
def stptime (ts : List FmtTok) (s : String) : Option Date :=
  match chainMatch (ts.map tokRE) s.data with
  | some (segs, []) =>
      match ymdOfSegs (ts.zip segs) (none, none, none) with
      | (some y, some m, some d) => mkDate y m d
      | _ => none
  | _ => none

/-- The `DATE_FORMATS` list of `normalize.py`, in order of
preference. -/
def DATE_FORMATS : List (List FmtTok) :=
  [ [.Y, .lit '-', .m, .lit '-', .d],       -- ISO format: 2024-01-15
    [.d, .lit '/', .m, .lit '/', .Y],       -- European: 15/01/2024
    [.m, .lit '/', .d, .lit '/', .Y],       -- US: 01/15/2024
    [.d, .lit '-', .m, .lit '-', .Y],       -- European with dashes
    [.m, .lit '-', .d, .lit '-', .Y],       -- US with dashes
    [.d, .ws, .b, .ws, .Y],                 -- 15 Jan 2024
    [.d, .ws, .B, .ws, .Y],                 -- 15 January 2024
    [.b, .ws, .d, .lit ',', .ws, .Y],       -- Jan 15, 2024
    [.B, .ws, .d, .lit ',', .ws, .Y] ]      -- January 15, 2024

/-- Try each fixed date format in order. -/
def tryDateFormats (cleaned : String) : Option Date :=
  DATE_FORMATS.findSome? (fun ts => stptime ts cleaned)

/-- `\d{1,2}` (greedy: two digits preferred). -/
def REd12 : RE := .cat REdigit (REopt REdigit)

/-- The separator class `[/\-.]`. -/
def REsep : RE := .cls (fun c => c == '/' || c == '-' || c == '.')

/-- `\d{2,4}` (greedy: longer preferred). -/
def REy24 : RE :=
  .cat REdigit (.cat REdigit (.cat (REopt REdigit) (REopt REdigit)))

/-- The loose fallback `re.search(r"(\d{1,2})[/\-.](\d{1,2})[/\-.](\d{2,4})")`
of `normalize_date`, returning the three captured digit groups. -/
def dateFallbackSearch (cleaned : String) : Option (Nat × Nat × Nat) :=
  match chainSearch [REd12, REsep, REd12, REsep, REy24] cleaned.data with
  | some ([ds, _, ms, _, ys], _) =>
      some (digitsToNat ds, digitsToNat ms, digitsToNat ys)
  | _ => none

/-- The fallback component extraction of `normalize_date`: two-digit
years get `2000` added; the day-then-month reading is tried first, then
month-then-day; `none` when neither yields a valid calendar date. -/
def dateFallback (cleaned : String) : Option Date :=
  match dateFallbackSearch cleaned with
  | some (d, m, y) =>
      let year := if y < 100 then y + 2000 else y
      match mkDate year m d with
      | some dt => some dt
      | none => mkDate year d m
  | none => none

/-- `FieldNormalizer.normalize_date`: try the fixed formats, then the
loose fallback at `0.8 ×` confidence, then `date.today()` (passed in
explicitly here, since the source's call is impure) at confidence
exactly `0`. -/
def normalize_date (today : Date) (text : String) (confidence : ℚ)
    (bounding_box : Option BoundingBox) :
    Except String (ExtractedField Date) :=
  match tryDateFormats (fix_ocr_errors (pyStrip text)) with
  | some dt => mkExtractedField dt confidence bounding_box (some text)
  | none =>
      match dateFallback (fix_ocr_errors (pyStrip text)) with
      | some dt =>
          mkExtractedField dt (confidence * (8 / 10)) bounding_box (some text)
      | none => mkExtractedField today 0 bounding_box (some text)

/-! ## Claim C6 -/

/-- C6: every successfully constructed `ExtractedField` has
`requires_review` true exactly when its confidence is strictly below
`0.7`, and construction with a confidence outside `[0, 1]` raises (a
`ValueError`, i.e. an `Except.error`), never silently accepts. -/
theorem C6_requires_review_iff_and_confidence_validated
    {α : Type} (value : α) (confidence : ℚ)
    (bounding_box : Option BoundingBox) (raw_text : Option String) :
    (∀ f, mkExtractedField value confidence bounding_box raw_text = .ok f →
        (f.requires_review = true ↔ f.confidence < 7 / 10)) ∧
    (¬ (0 ≤ confidence ∧ confidence ≤ 1) →
        ∃ e, mkExtractedField value confidence bounding_box raw_text = .error e) := by
  constructor
  · intro f hf
    unfold mkExtractedField at hf
    split at hf
    · cases hf
      simp [ExtractedField.requires_review]
    · cases hf
  · intro h
    refine ⟨"Confidence must be 0-1", ?_⟩
    unfold mkExtractedField
    split
    · exact absurd (by assumption) h
    · rfl

/-- Witness for C6 at a concrete field: confidence `1/2` is accepted and
flagged for review, and confidence `3/2` is rejected. -/
theorem C6_witness :
    ((⟨(0 : Nat), 1 / 2, none, none⟩ : ExtractedField Nat).requires_review = true ↔
        ((⟨(0 : Nat), 1 / 2, none, none⟩ : ExtractedField Nat).confidence < 7 / 10)) ∧
    (∃ e, mkExtractedField (0 : Nat) (3 / 2) none none = .error e) := by
  refine ⟨?_, ?_⟩
  · exact (C6_requires_review_iff_and_confidence_validated (0 : Nat) (1 / 2) none none).1
      ⟨(0 : Nat), 1 / 2, none, none⟩ (by with_unfolding_all rfl)
  · exact (C6_requires_review_iff_and_confidence_validated (0 : Nat) (3 / 2) none none).2
      (by with_unfolding_all decide)

/-! ## Claim C3 -/

/-- C3 (amended): for confidences within the OCR contract `[0, 1]` the
normalizer's parse functions never raise, and parse failure yields a
zero-value placeholder (`Decimal("0")`, or the today-sentinel for
dates) with the original raw text preserved; the date normalizer
reports total failure with confidence exactly `0.0`, while the amount
and quantity normalizers keep the caller's confidence unchanged. -/
theorem C3_parse_failure_yields_placeholder_field (today : Date)
    (text : String) (confidence : ℚ) (bounding_box : Option BoundingBox)
    (h0 : 0 ≤ confidence) (h1 : confidence ≤ 1) :
    (pyDecimal (amountCleaned text) = none →
      normalize_amount text confidence bounding_box =
        .ok ⟨0, confidence, bounding_box, some text⟩) ∧
    (pyDecimal (quantityCleaned text) = none →
      normalize_quantity text confidence bounding_box =
        .ok ⟨0, confidence, bounding_box, some text⟩) ∧
    (tryDateFormats (fix_ocr_errors (pyStrip text)) = none →
      dateFallback (fix_ocr_errors (pyStrip text)) = none →
      normalize_date today text confidence bounding_box =
        .ok ⟨today, 0, bounding_box, some text⟩) := by
  refine ⟨?_, ?_, ?_⟩
  · intro hp
    unfold normalize_amount amountValue
    rw [hp]
    unfold mkExtractedField
    rw [if_pos ⟨h0, h1⟩]
    rfl
  · intro hp
    unfold normalize_quantity quantityValue
    rw [hp]
    unfold mkExtractedField
    rw [if_pos ⟨h0, h1⟩]
  · intro hfmt hfb
    unfold normalize_date
    rw [hfmt, hfb]
    show mkExtractedField today 0 bounding_box (some text) = _
    unfold mkExtractedField
    rw [if_pos (by norm_num)]

/-- Counterexample for C3 as frozen: on the unparseable amount text
`"abc"` with OCR confidence `0.9`, the returned field keeps confidence
`0.9` — not the `0.0` the claim asserts for every parse failure. -/
theorem C3_counterexample :
    pyDecimal (amountCleaned "abc") = none ∧
    normalize_amount "abc" (9 / 10) none =
      .ok ⟨0, 9 / 10, none, some "abc"⟩ ∧
    (9 / 10 : ℚ) ≠ 0 := by
  refine ⟨by with_unfolding_all rfl, by with_unfolding_all rfl,
    by with_unfolding_all decide⟩

/-- Witness for C3 (amended) at the unparseable text `"abc"` with
confidence `1/2` for all three normalizers. -/
theorem C3_witness :
    normalize_amount "abc" (1 / 2) none = .ok ⟨0, 1 / 2, none, some "abc"⟩ ∧
    normalize_quantity "abc" (1 / 2) none = .ok ⟨0, 1 / 2, none, some "abc"⟩ ∧
    normalize_date ⟨2025, 1, 1⟩ "abc" (1 / 2) none =
      .ok ⟨⟨2025, 1, 1⟩, 0, none, some "abc"⟩ := by
  refine ⟨?_, ?_, ?_⟩
  · exact (C3_parse_failure_yields_placeholder_field ⟨2025, 1, 1⟩ "abc" (1 / 2)
      none (by norm_num) (by norm_num)).1 (by with_unfolding_all rfl)
  · exact (C3_parse_failure_yields_placeholder_field ⟨2025, 1, 1⟩ "abc" (1 / 2)
      none (by norm_num) (by norm_num)).2.1 (by with_unfolding_all rfl)
  · exact (C3_parse_failure_yields_placeholder_field ⟨2025, 1, 1⟩ "abc" (1 / 2)
      none (by norm_num) (by norm_num)).2.2 (by with_unfolding_all rfl)
      (by with_unfolding_all rfl)

/-! ## Claim C4 -/

/-- C4 (amended): when every fixed date format fails and the loose
day/month/year fallback succeeds, the returned field's confidence is
`0.8 ×` the input confidence (the source's comment says "lower
confidence for fallback"; the factor is `0.8`, not one half). -/
theorem C4_date_fallback_scales_confidence (today : Date) (text : String)
    (confidence : ℚ) (bounding_box : Option BoundingBox) (dt : Date)
    (h0 : 0 ≤ confidence) (h1 : confidence ≤ 1)
    (hfmt : tryDateFormats (fix_ocr_errors (pyStrip text)) = none)
    (hfb : dateFallback (fix_ocr_errors (pyStrip text)) = some dt) :
    normalize_date today text confidence bounding_box =
      .ok ⟨dt, confidence * (8 / 10), bounding_box, some text⟩ := by
  unfold normalize_date
  rw [hfmt, hfb]
  show mkExtractedField dt (confidence * (8 / 10)) bounding_box (some text) = _
  unfold mkExtractedField
  rw [if_pos ⟨by positivity, by nlinarith⟩]

/-- Counterexample for C4 as frozen: `"15.01.2024"` matches no fixed
format, is parsed by the fallback, and with input confidence `1` the
returned confidence is `0.8`, not the claimed half. -/
theorem C4_counterexample :
    tryDateFormats (fix_ocr_errors (pyStrip "15.01.2024")) = none ∧
    dateFallback (fix_ocr_errors (pyStrip "15.01.2024")) =
      some ⟨2024, 1, 15⟩ ∧
    normalize_date ⟨2025, 10, 12⟩ "15.01.2024" 1 none =
      .ok ⟨⟨2024, 1, 15⟩, 8 / 10, none, some "15.01.2024"⟩ ∧
    (8 / 10 : ℚ) ≠ (1 : ℚ) * (1 / 2) := by
  refine ⟨by with_unfolding_all decide, by with_unfolding_all rfl,
    by with_unfolding_all rfl, by with_unfolding_all decide⟩

/-- Witness for C4 (amended) at `"15.01.2024"` with confidence `1`. -/
theorem C4_witness :
    normalize_date ⟨2025, 10, 12⟩ "15.01.2024" 1 none =
      .ok ⟨⟨2024, 1, 15⟩, 1 * (8 / 10), none, some "15.01.2024"⟩ :=
  C4_date_fallback_scales_confidence ⟨2025, 10, 12⟩ "15.01.2024" 1 none
    ⟨2024, 1, 15⟩ (by norm_num) (by norm_num)
    (by with_unfolding_all decide) (by with_unfolding_all rfl)

/-! ## Table detector (`eula/services/ocr/table.py`) -/

/-- A positioned OCR text block (`engine.TextBlock`). -/
structure TextBlock where
  text : String
  confidence : ℚ
  x_min : ℚ
  y_min : ℚ
  x_max : ℚ
  y_max : ℚ
  page : Nat
deriving Repr, DecidableEq

/-- Horizontal center of the text block. -/
def TextBlock.center_x (b : TextBlock) : ℚ := (b.x_min + b.x_max) / 2

/-- Vertical center of the text block. -/
def TextBlock.center_y (b : TextBlock) : ℚ := (b.y_min + b.y_max) / 2

/-- Default row tolerance (fraction of page height). -/
def ROW_TOLERANCE : ℚ := 15 / 1000

/-- Default column tolerance (fraction of page width). -/
def COLUMN_TOLERANCE : ℚ := 5 / 100

/-- The clustering loop inside `_detect_column_boundaries`.  State:
remaining sorted edges, accumulated `column_starts`, and the current
cluster's start, sum and count.  When a cluster other than the first
closes, the source first inserts an extra pseudo-start
`(column_starts[-1] + cluster_start) / 2 + tolerance` (when that
exceeds the last entry) before appending the cluster centroid. -/
def columnStartsLoop (tol : ℚ) :
    List ℚ → List ℚ → ℚ → ℚ → ℚ → List ℚ
  | [], cs, _, sum, cnt => cs ++ [sum / cnt]
  | e :: rest, cs, start, sum, cnt =>
      if e - start ≤ tol then
        columnStartsLoop tol rest cs start (sum + e) (cnt + 1)
      else
        match cs.getLast? with
        | none => columnStartsLoop tol rest (cs ++ [sum / cnt]) e e 1
        | some lastv =>
            columnStartsLoop tol rest
              ((if (lastv + start) / 2 + tol > lastv then
                  cs ++ [(lastv + start) / 2 + tol]
                else cs) ++ [sum / cnt]) e e 1

/-- The sorted left edges of the blocks (`left_edges.sort()`); as with
`pySorted`, any sorting algorithm yields the same value list. -/
def sortedLeftEdges (blocks : List TextBlock) : List ℚ :=
  (blocks.map (fun b => b.x_min)).insertionSort (· ≤ ·)

/-- The `column_starts` list of `_detect_column_boundaries`. -/
def column_starts (tol : ℚ) (blocks : List TextBlock) : List ℚ :=
  match sortedLeftEdges blocks with
  | [] => []
  | e :: rest => columnStartsLoop tol rest [] e e 1

/-- Midpoints between successive entries of a list (the final loop of
`_detect_column_boundaries`). -/
def midpoints : List ℚ → List ℚ
  | a :: b :: rest => (a + b) / 2 :: midpoints (b :: rest)
  | _ => []

/-- `TableDetector._detect_column_boundaries`. -/
def detect_column_boundaries (tol : ℚ) (blocks : List TextBlock) :
    List ℚ :=
  if blocks.isEmpty then [] else midpoints (column_starts tol blocks)

/-- The clustering of sorted left edges as the claim describes it,
reduced to the centroid list: same greedy merge rule, no inserted
pseudo-starts.  Stated from the claim's words for comparison with
`detect_column_boundaries`. -/
def clusterLoopSpec (tol : ℚ) : List ℚ → ℚ → ℚ → ℚ → List ℚ
  | [], _, sum, cnt => [sum / cnt]
  | e :: rest, start, sum, cnt =>
      if e - start ≤ tol then clusterLoopSpec tol rest start (sum + e) (cnt + 1)
      else (sum / cnt) :: clusterLoopSpec tol rest e e 1

/-- Centroids of left-edge clusters. -/
def clusterCentroids (tol : ℚ) (blocks : List TextBlock) : List ℚ :=
  match sortedLeftEdges blocks with
  | [] => []
  | e :: rest => clusterLoopSpec tol rest e e 1

/-- The column boundaries the claim predicts: exactly the midpoints
between successive cluster centroids. -/
def claimedColumnBoundaries (tol : ℚ) (blocks : List TextBlock) : List ℚ :=
  if blocks.isEmpty then [] else midpoints (clusterCentroids tol blocks)

/-- A single cell in a detected table (`table.TableCell`). -/
structure TableCell where
  text : String
  confidence : ℚ
  row : Nat
  column : Nat
  blocks : List TextBlock := []
deriving Repr, DecidableEq

/-- The `min_confidence` property: minimum confidence among the cell's
blocks (the stored `confidence` attribute when there are none). -/
def TableCell.min_confidence (c : TableCell) : ℚ :=
  match c.blocks with
  | [] => c.confidence
  | b :: rest => rest.foldl (fun acc x => min acc x.confidence) b.confidence

/-- A row of cells (`table.TableRow`); the `cells` dict is an
association list keyed by column index (keys unique, first match). -/
structure TableRow where
  index : Nat
  cells : List (Nat × TableCell) := []
deriving Repr, DecidableEq

/-- `TableDetector._get_column_index`: the first boundary the position
is left of; the last column catches everything else. -/
def get_column_index (x : ℚ) : List ℚ → Nat
  | [] => 0
  | b :: rest => if x < b then 0 else get_column_index x rest + 1

/-- Replace the cell stored at a column key. -/
def updateCell (cells : List (Nat × TableCell)) (col : Nat) (c : TableCell) :
    List (Nat × TableCell) :=
  cells.map (fun p => if p.1 = col then (col, c) else p)

/-- One step of the cell-building loop of `_build_table_rows`: append
to the existing cell at the block's column (text joined with a single
space, `blocks` extended, `confidence` left as it was), or create a
fresh cell. -/
def addBlockToCells (row_idx : Nat) (boundaries : List ℚ)
    (cells : List (Nat × TableCell)) (b : TextBlock) :
    List (Nat × TableCell) :=
  match List.lookup (get_column_index b.center_x boundaries) cells with
  | some cell =>
      updateCell cells (get_column_index b.center_x boundaries)
        ⟨cell.text ++ " " ++ b.text, cell.confidence, cell.row, cell.column,
          cell.blocks ++ [b]⟩
  | none =>
      cells ++ [(get_column_index b.center_x boundaries,
        ⟨b.text, b.confidence, row_idx, get_column_index b.center_x boundaries,
          [b]⟩)]

/-- The cells of one row, built left to right. -/
def build_row_cells (row_idx : Nat) (boundaries : List ℚ)
    (blocks : List TextBlock) : List (Nat × TableCell) :=
  blocks.foldl (addBlockToCells row_idx boundaries) []

/-- `TableDetector._build_table_rows`. -/
def build_table_rows (text_rows : List (List TextBlock))
    (boundaries : List ℚ) : List TableRow :=
  text_rows.enum.map (fun p => ⟨p.1, build_row_cells p.1 boundaries p.2⟩)

/-! ## Smart field extractor (`eula/services/ocr/extractor.py`) -/

/-- A pattern with one capture group: the regex before the group, the
group itself, and the regex after it. -/
structure GPat where
  pre : RE
  grp : RE
  post : RE

/-- The capture group `([\d,]+\.?\d{0,2})` shared by the first six
amount patterns. -/
def REamountGrp : RE :=
  .cat (REplus (.cls (fun c => c.isDigit || c == ',')))
    (.cat (REopt (REchar '.')) (.cat (REopt REdigit) (REopt REdigit)))

/-- The group of the general-number pattern:
`([\d]{1,3}(?:,\d{3})*\.?\d{0,2})`. -/
def REamountGrp7 : RE :=
  .cat (.cat REdigit (.cat (REopt REdigit) (REopt REdigit)))
    (.cat (.star (.cat (REchar ',') (.cat REdigit (.cat REdigit REdigit))))
      (.cat (REopt (REchar '.')) (.cat (REopt REdigit) (REopt REdigit))))

/-- `\s*`. -/
def REspaces : RE := .star (.cls pyIsSpace)

/-- The `AMOUNT_PATTERNS` list of `extractor.py`, in order (all matched
with `re.IGNORECASE`). -/
def AMOUNT_PATTERNS : List GPat :=
  [ -- S$1,000.00 (Singapore)
    ⟨.cat (REci 'S') (.cat (REchar '$') REspaces), REamountGrp, .eps⟩,
    -- SGD 1000.00
    ⟨.cat (REci 'S') (.cat (REci 'G') (.cat (REci 'D') REspaces)),
      REamountGrp, .eps⟩,
    -- SS1,000.00 (OCR misread of S$)
    ⟨.cat (REci 'S') (REci 'S'), REamountGrp, .eps⟩,
    -- $8,000.00
    ⟨.cat (REchar '$') REspaces, REamountGrp, .eps⟩,
    -- 8000.00 USD
    ⟨.eps, REamountGrp,
      .cat REspaces (REaltList
        [REstrCI "USD", .cat (REstrCI "dollar") (REopt (REci 's')),
         REstrCI "SGD"])⟩,
    -- Total: S$8000
    ⟨.cat (REaltList [REstrCI "Total", REstrCI "Amount", REstrCI "Due",
        REstrCI "Subtotal", REstrCI "Balance"])
      (.cat (.star (.cls (fun c => c == ':' || pyIsSpace c)))
        (.cat (.star (.cls (fun c => c == 'S' || c == 's' || c == '$')))
          REspaces)),
      REamountGrp, .eps⟩,
    -- 8,000.00 (general number with commas)
    ⟨.eps, REamountGrp7, .eps⟩ ]

/-- All group-1 captures of a pattern over a text
(`re.finditer(...).group(1)`). -/
def gpatFindAll (p : GPat) (s : List Char) : List String :=
  (chainFindIter [p.pre, p.grp, p.post] (s.length + 1) s).filterMap
    (fun segs =>
      match segs with
      | [_, g, _] => some (String.mk g)
      | _ => none)

/-- The per-match cleaning and parsing of `extract_amount`: drop commas
and dollar signs, strip; skip empty or `"."`; `Decimal` parse (a raise
skips the match). -/
def parseAmountRaw (raw : String) : Option ℚ :=
  if ¬ (pyStrip (pyReplace (pyReplace raw "," "") "$" "")).isEmpty ∧
      pyStrip (pyReplace (pyReplace raw "," "") "$" "") ≠ "." then
    pyDecimal (pyStrip (pyReplace (pyReplace raw "," "") "$" ""))
  else none

/-- Collect every positive parsed amount over a text at a fixed base
confidence, pattern by pattern. -/
def collectAmounts (conf : ℚ) (text : List Char) : List (ℚ × ℚ × String) :=
  AMOUNT_PATTERNS.flatMap (fun p =>
    (gpatFindAll p text).filterMap (fun raw =>
      match parseAmountRaw raw with
      | some amount => if amount > 0 then some (amount, conf, raw) else none
      | none => none))

/-- The labelled candidates of `extract_amount`: for each label with a
(case-insensitive) occurrence, re-scan the 200-character window
starting at that occurrence at base confidence `0.95`. -/
def scoredAmounts (text : List Char) (labels : List String) :
    List (ℚ × ℚ × String) :=
  labels.flatMap (fun label =>
    match findIdxSub (pyLower label).data (text.map Char.toLower) with
    | none => []
    | some pos => collectAmounts (95 / 100) ((text.drop pos).take 200))

/-- Python `max(xs, key)` over `init :: rest`: the first element
attaining the maximum key. -/
def pyMaxBy {α β : Type} [LinearOrder β] (key : α → β) : α → List α → α
  | best, [] => best
  | best, x :: rest => pyMaxBy key (if key x > key best then x else best) rest

/-- `SmartFieldExtractor.extract_amount`.  The confidences placed in
the fields are the literals `0.95`, `0.85`, `0.6` and `0.0`, all within
`[0, 1]`, so the `ExtractedField` validator cannot fire and the field
is built directly. -/
def extract_amount (full_text : String) (labels : List String)
    (prefer_largest : Bool) : ExtractedField ℚ :=
  match collectAmounts (85 / 100) full_text.data with
  | [] => ⟨0, 0, none, some ""⟩
  | a0 :: arest =>
      match scoredAmounts full_text.data labels with
      | [] =>
          ⟨(pyMaxBy (fun x => x.1) a0 arest).1, 6 / 10, none,
            some (pyMaxBy (fun x => x.1) a0 arest).2.2⟩
      | s0 :: srest =>
          if prefer_largest then
            ⟨(pyMaxBy (fun x => x.1) s0 srest).1,
              (pyMaxBy (fun x => x.1) s0 srest).2.1, none,
              some (pyMaxBy (fun x => x.1) s0 srest).2.2⟩
          else
            ⟨(pyMaxBy (fun x => x.2.1) s0 srest).1,
              (pyMaxBy (fun x => x.2.1) s0 srest).2.1, none,
              some (pyMaxBy (fun x => x.2.1) s0 srest).2.2⟩

/-! ## Claim C1 -/

/-- Helper: the status decision of `run_full_verification`, as
predicates over the pieces of the result. -/
theorem overallStatus_spec (cs : List ValidationCheck) (ans : List Anomaly)
    (fs : List String) :
    (overallStatus cs ans fs = .failed ↔
      (∃ c ∈ cs, c.passed = false) ∨ (∃ a ∈ ans, a.severity = "error")) ∧
    (overallStatus cs ans fs = .requires_review ↔
      ¬ ((∃ c ∈ cs, c.passed = false) ∨ (∃ a ∈ ans, a.severity = "error")) ∧
        fs ≠ []) ∧
    (overallStatus cs ans fs = .passed ↔
      ¬ ((∃ c ∈ cs, c.passed = false) ∨ (∃ a ∈ ans, a.severity = "error")) ∧
        fs = []) := by
  have hb : (!(cs.all (fun c => c.passed)) ||
        ans.any (fun a => a.severity == "error")) = true ↔
      (∃ c ∈ cs, c.passed = false) ∨ (∃ a ∈ ans, a.severity = "error") := by
    simp [List.all_eq_true, List.any_eq_true]
  unfold overallStatus
  by_cases h : (!(cs.all (fun c => c.passed)) ||
      ans.any (fun a => a.severity == "error")) = true
  · rw [if_pos h]
    refine ⟨iff_of_true rfl (hb.mp h), ?_, ?_⟩
    · exact iff_of_false (by simp) (fun hr => hr.1 (hb.mp h))
    · exact iff_of_false (by simp) (fun hr => hr.1 (hb.mp h))
  · have hF := fun hf => h (hb.mpr hf)
    rw [if_neg h]
    by_cases h2 : fs.length > 0
    · rw [if_pos h2]
      refine ⟨iff_of_false (by simp) hF, ?_, ?_⟩
      · exact iff_of_true rfl ⟨hF, List.ne_nil_of_length_pos h2⟩
      · refine iff_of_false (by simp) (fun hr => ?_)
        rw [hr.2] at h2
        exact absurd h2 (by simp)
    · rw [if_neg h2]
      refine ⟨iff_of_false (by simp) hF, ?_, ?_⟩
      · refine iff_of_false (by simp) (fun hr => ?_)
        exact hr.2 (List.eq_nil_of_length_eq_zero (by omega))
      · exact iff_of_true rfl
          ⟨hF, List.eq_nil_of_length_eq_zero (by omega)⟩

/-- C1: the status of `run_full_verification` follows the claimed
precedence: `FAILED` exactly when some check failed or some anomaly has
severity `"error"`; otherwise `REQUIRES_REVIEW` exactly when the review
flag list is non-empty; otherwise `PASSED`. -/
theorem C1_run_full_verification_status_precedence
    (bundle : DocumentBundle) (historical_average : Option ℚ)
    (confidence_threshold : ℚ) :
    ((run_full_verification bundle historical_average
        confidence_threshold).status = .failed ↔
      (∃ c ∈ (run_full_verification bundle historical_average
          confidence_threshold).checks, c.passed = false) ∨
      (∃ a ∈ (run_full_verification bundle historical_average
          confidence_threshold).anomalies, a.severity = "error")) ∧
    ((run_full_verification bundle historical_average
        confidence_threshold).status = .requires_review ↔
      ¬ ((∃ c ∈ (run_full_verification bundle historical_average
            confidence_threshold).checks, c.passed = false) ∨
         (∃ a ∈ (run_full_verification bundle historical_average
            confidence_threshold).anomalies, a.severity = "error")) ∧
      (run_full_verification bundle historical_average
        confidence_threshold).review_flags ≠ []) ∧
    ((run_full_verification bundle historical_average
        confidence_threshold).status = .passed ↔
      ¬ ((∃ c ∈ (run_full_verification bundle historical_average
            confidence_threshold).checks, c.passed = false) ∨
         (∃ a ∈ (run_full_verification bundle historical_average
            confidence_threshold).anomalies, a.severity = "error")) ∧
      (run_full_verification bundle historical_average
        confidence_threshold).review_flags = []) :=
  overallStatus_spec (verificationChecks bundle)
    (detect_anomalies bundle.invoice historical_average)
    (collect_review_flags bundle confidence_threshold)

/-! ## Claim C2 -/

/-- A minimal concrete invoice used by the claims' worked examples:
every confidence is `1` and the currency is `"USD"`. -/
def testInvoice (amount : ℚ) : Invoice :=
  ⟨⟨"INV-001", 1, none, none⟩, ⟨amount, 1, none, none⟩,
   ⟨"USD", 1, none, none⟩, ⟨⟨2024, 1, 5⟩, 1, none, none⟩,
   ⟨⟨2024, 2, 5⟩, 1, none, none⟩, ⟨"Acme Supplies", 1, none, none⟩,
   ⟨"Beta Retail", 1, none, none⟩, []⟩

/-- A minimal concrete purchase order matching `testInvoice`. -/
def testPO (amount : ℚ) : PurchaseOrder :=
  ⟨⟨"PO-001", 1, none, none⟩, ⟨amount, 1, none, none⟩,
   ⟨"USD", 1, none, none⟩, ⟨⟨2024, 1, 2⟩, 1, none, none⟩,
   ⟨"Beta Retail", 1, none, none⟩, ⟨"Acme Supplies", 1, none, none⟩, []⟩

/-- C2: `validate_amount_authorization` fails on a currency mismatch;
otherwise fails citing the exceeds-PO message when the invoice total
exceeds the authorized amount beyond `0.01`; otherwise fails citing the
excessive-variance message when `|invoice − PO| / PO > 0.20` (variance
`0` when the PO amount is not positive); otherwise passes.  In
particular `6000` against `8000` in the same currency fails with the
variance message, not the exceeds-PO message, and `8000` against `8000`
passes. -/
theorem C2_validate_amount_authorization_branches :
    (∀ (invoice : Invoice) (po : PurchaseOrder),
      (invoice.currency.value ≠ po.currency.value →
        (validate_amount_authorization invoice po).passed = false ∧
        (validate_amount_authorization invoice po).message =
          currencyMismatchMessage invoice.currency.value
            po.currency.value) ∧
      (invoice.currency.value = po.currency.value →
        invoice.total_amount.value >
            po.authorized_amount.value + DECIMAL_TOLERANCE →
        (validate_amount_authorization invoice po).passed = false ∧
        (validate_amount_authorization invoice po).message =
          exceedsPOMessage invoice.total_amount.value
            po.authorized_amount.value) ∧
      (invoice.currency.value = po.currency.value →
        ¬ invoice.total_amount.value >
            po.authorized_amount.value + DECIMAL_TOLERANCE →
        amountVariance invoice.total_amount.value po.authorized_amount.value >
            AMOUNT_VARIANCE_TOLERANCE →
        (validate_amount_authorization invoice po).passed = false ∧
        (validate_amount_authorization invoice po).message =
          amountMismatchMessage invoice.total_amount.value
            po.authorized_amount.value
            (amountVariance invoice.total_amount.value
              po.authorized_amount.value)) ∧
      (invoice.currency.value = po.currency.value →
        ¬ invoice.total_amount.value >
            po.authorized_amount.value + DECIMAL_TOLERANCE →
        ¬ amountVariance invoice.total_amount.value
            po.authorized_amount.value > AMOUNT_VARIANCE_TOLERANCE →
        (validate_amount_authorization invoice po).passed = true)) ∧
    (validate_amount_authorization (testInvoice 6000)
      (testPO 8000)).passed = false ∧
    (validate_amount_authorization (testInvoice 6000) (testPO 8000)).message =
      amountMismatchMessage 6000 8000 (amountVariance 6000 8000) ∧
    (validate_amount_authorization (testInvoice 6000) (testPO 8000)).message ≠
      exceedsPOMessage 6000 8000 ∧
    (validate_amount_authorization (testInvoice 8000)
      (testPO 8000)).passed = true := by
  refine ⟨?_, ?_, ?_, ?_, ?_⟩
  · intro invoice po
    refine ⟨?_, ?_, ?_, ?_⟩
    · intro h
      unfold validate_amount_authorization
      rw [if_pos h]
      exact ⟨rfl, rfl⟩
    · intro hc he
      unfold validate_amount_authorization
      rw [if_neg (fun hne => hne hc), if_pos he]
      exact ⟨rfl, rfl⟩
    · intro hc he hv
      unfold validate_amount_authorization
      rw [if_neg (fun hne => hne hc), if_neg he, if_pos hv]
      exact ⟨rfl, rfl⟩
    · intro hc he hv
      unfold validate_amount_authorization
      rw [if_neg (fun hne => hne hc), if_neg he, if_neg hv]
  · with_unfolding_all decide
  · with_unfolding_all decide
  · with_unfolding_all decide
  · with_unfolding_all decide

/-- Witness for C2: the variance branch applied at the concrete
`6000` / `8000` pair, each hypothesis discharged by computation. -/
theorem C2_witness :
    (validate_amount_authorization (testInvoice 6000)
        (testPO 8000)).passed = false ∧
    (validate_amount_authorization (testInvoice 6000) (testPO 8000)).message =
      amountMismatchMessage 6000 8000 (amountVariance 6000 8000) :=
  ((C2_validate_amount_authorization_branches.1 (testInvoice 6000)
      (testPO 8000)).2.2.1 rfl (by with_unfolding_all decide)
    (by with_unfolding_all decide))

/-! ## Claim C7 -/

/-- Helper: when every remaining edge lies within the tolerance of the
current cluster start, the loop accumulates them all and closes with
the single centroid. -/
theorem columnStartsLoop_all_within (tol start : ℚ) (rest : List ℚ)
    (h : ∀ x ∈ rest, x - start ≤ tol) (cs : List ℚ) (sum cnt : ℚ) :
    columnStartsLoop tol rest cs start sum cnt =
      cs ++ [(sum + rest.sum) / (cnt + rest.length)] := by
  induction rest generalizing sum cnt with
  | nil => simp [columnStartsLoop]
  | cons x xs ih =>
      rw [columnStartsLoop, if_pos (h x (List.mem_cons_self x xs)),
        ih (fun y hy => h y (List.mem_cons_of_mem x hy)) (sum + x) (cnt + 1)]
      congr 2
      simp only [List.sum_cons, List.length_cons]
      push_cast
      ring_nf

/-- Helper: the same accumulation for the claim's centroid-only
clustering. -/
theorem clusterLoopSpec_all_within (tol start : ℚ) (rest : List ℚ)
    (h : ∀ x ∈ rest, x - start ≤ tol) (sum cnt : ℚ) :
    clusterLoopSpec tol rest start sum cnt =
      [(sum + rest.sum) / (cnt + rest.length)] := by
  induction rest generalizing sum cnt with
  | nil => simp [clusterLoopSpec]
  | cons x xs ih =>
      rw [clusterLoopSpec, if_pos (h x (List.mem_cons_self x xs)),
        ih (fun y hy => h y (List.mem_cons_of_mem x hy)) (sum + x) (cnt + 1)]
      congr 2 <;> simp only [List.sum_cons, List.length_cons] <;> push_cast <;>
        ring_nf

/-- Helper: with exactly two clusters and an empty accumulator, the
source loop produces exactly the two centroids (the pseudo-start branch
never fires, since `column_starts` is empty when the first cluster
closes). -/
theorem columnStartsLoop_two_clusters (tol start f : ℚ) (g1 g2 : List ℚ)
    (h1 : ∀ x ∈ g1, x - start ≤ tol) (hf : ¬ f - start ≤ tol)
    (h2 : ∀ x ∈ g2, x - f ≤ tol) (sum cnt : ℚ) :
    columnStartsLoop tol (g1 ++ f :: g2) [] start sum cnt =
      [(sum + g1.sum) / (cnt + g1.length),
       (f + g2.sum) / (1 + g2.length)] := by
  induction g1 generalizing sum cnt with
  | nil =>
      rw [List.nil_append, columnStartsLoop, if_neg hf]
      show columnStartsLoop tol g2 ([] ++ [sum / cnt]) f f 1 = _
      rw [columnStartsLoop_all_within tol f g2 h2 ([] ++ [sum / cnt]) f 1]
      simp only [List.nil_append, List.cons_append, List.sum_nil,
        List.length_nil, Nat.cast_zero, add_zero]
  | cons x xs ih =>
      rw [List.cons_append, columnStartsLoop,
        if_pos (h1 x (List.mem_cons_self x xs)),
        ih (fun y hy => h1 y (List.mem_cons_of_mem x hy)) (sum + x) (cnt + 1)]
      congr 2 <;> simp only [List.sum_cons, List.length_cons] <;> push_cast <;>
        ring_nf

/-- Helper: the claim's clustering on the same two-cluster input. -/
theorem clusterLoopSpec_two_clusters (tol start f : ℚ) (g1 g2 : List ℚ)
    (h1 : ∀ x ∈ g1, x - start ≤ tol) (hf : ¬ f - start ≤ tol)
    (h2 : ∀ x ∈ g2, x - f ≤ tol) (sum cnt : ℚ) :
    clusterLoopSpec tol (g1 ++ f :: g2) start sum cnt =
      [(sum + g1.sum) / (cnt + g1.length),
       (f + g2.sum) / (1 + g2.length)] := by
  induction g1 generalizing sum cnt with
  | nil =>
      rw [List.nil_append, clusterLoopSpec, if_neg hf,
        clusterLoopSpec_all_within tol f g2 h2 f 1]
      simp only [List.sum_nil, List.length_nil, Nat.cast_zero, add_zero]
  | cons x xs ih =>
      rw [List.cons_append, clusterLoopSpec,
        if_pos (h1 x (List.mem_cons_self x xs)),
        ih (fun y hy => h1 y (List.mem_cons_of_mem x hy)) (sum + x) (cnt + 1)]
      congr 2 <;> simp only [List.sum_cons, List.length_cons] <;> push_cast <;>
        ring_nf

/-- Helper: a non-empty sorted edge list means a non-empty block
list. -/
theorem blocks_not_empty_of_sorted_cons {blocks : List TextBlock}
    {e : ℚ} {rest : List ℚ} (h : sortedLeftEdges blocks = e :: rest) :
    blocks.isEmpty = false := by
  cases blocks with
  | nil => simp [sortedLeftEdges] at h
  | cons b bs => rfl

/-- C7 (amended): with at most two left-edge clusters the boundaries
are exactly the midpoints between successive cluster centroids (none
for one cluster, the single centroid midpoint for two); with three or
more clusters the source additionally inserts a pseudo-start
`(previous entry + closing cluster start) / 2 + tolerance` into the
start list before the third and later centroids, and the boundaries
are the midpoints between successive entries of that longer list — see
the counterexample for the resulting extra boundaries. -/
theorem C7_column_boundaries_two_cluster_case (tol : ℚ)
    (blocks : List TextBlock) :
    (∀ e g1, sortedLeftEdges blocks = e :: g1 →
      (∀ x ∈ g1, x - e ≤ tol) →
      detect_column_boundaries tol blocks = [] ∧
      detect_column_boundaries tol blocks =
        claimedColumnBoundaries tol blocks) ∧
    (∀ e f g1 g2, sortedLeftEdges blocks = e :: (g1 ++ f :: g2) →
      (∀ x ∈ g1, x - e ≤ tol) → ¬ f - e ≤ tol →
      (∀ x ∈ g2, x - f ≤ tol) →
      detect_column_boundaries tol blocks =
        [((e + g1.sum) / (1 + g1.length) +
          (f + g2.sum) / (1 + g2.length)) / 2] ∧
      detect_column_boundaries tol blocks =
        claimedColumnBoundaries tol blocks) := by
  constructor
  · intro e g1 hsort hin
    have hne := blocks_not_empty_of_sorted_cons hsort
    have hdet : detect_column_boundaries tol blocks = [] := by
      unfold detect_column_boundaries column_starts
      rw [hne, hsort]
      show midpoints (columnStartsLoop tol g1 [] e e 1) = []
      rw [columnStartsLoop_all_within tol e g1 hin [] e 1]
      rfl
    refine ⟨hdet, ?_⟩
    rw [hdet]
    unfold claimedColumnBoundaries clusterCentroids
    rw [hne, hsort]
    show [] = midpoints (clusterLoopSpec tol g1 e e 1)
    rw [clusterLoopSpec_all_within tol e g1 hin e 1]
    rfl
  · intro e f g1 g2 hsort h1 hf h2
    have hne := blocks_not_empty_of_sorted_cons hsort
    have hdet : detect_column_boundaries tol blocks =
        [((e + g1.sum) / (1 + g1.length) +
          (f + g2.sum) / (1 + g2.length)) / 2] := by
      unfold detect_column_boundaries column_starts
      rw [hne, hsort]
      show midpoints (columnStartsLoop tol (g1 ++ f :: g2) [] e e 1) = _
      rw [columnStartsLoop_two_clusters tol e f g1 g2 h1 hf h2 e 1]
      rfl
    refine ⟨hdet, ?_⟩
    rw [hdet]
    unfold claimedColumnBoundaries clusterCentroids
    rw [hne, hsort]
    show _ = midpoints (clusterLoopSpec tol (g1 ++ f :: g2) e e 1)
    rw [clusterLoopSpec_two_clusters tol e f g1 g2 h1 hf h2 e 1]
    rfl

/-- The three-cluster fragment list of the C7 counterexample: left
edges `0`, `2/5`, `4/5`, each its own cluster at the default
tolerance. -/
def c7Blocks : List TextBlock :=
  [⟨"a", 1, 0, 0, 0, 0, 0⟩,
   ⟨"b", 1, 2 / 5, 0, 2 / 5, 0, 0⟩,
   ⟨"c", 1, 4 / 5, 0, 4 / 5, 0, 0⟩]

/-- Counterexample for C7 as frozen: three singleton clusters (k = 3)
yield three boundaries `[1/8, 13/40, 3/5]`, not the two centroid
midpoints `[1/5, 3/5]` the claim predicts. -/
theorem C7_counterexample :
    detect_column_boundaries COLUMN_TOLERANCE c7Blocks =
      [1 / 8, 13 / 40, 3 / 5] ∧
    claimedColumnBoundaries COLUMN_TOLERANCE c7Blocks = [1 / 5, 3 / 5] ∧
    detect_column_boundaries COLUMN_TOLERANCE c7Blocks ≠
      claimedColumnBoundaries COLUMN_TOLERANCE c7Blocks ∧
    (clusterCentroids COLUMN_TOLERANCE c7Blocks).length = 3 ∧
    (detect_column_boundaries COLUMN_TOLERANCE c7Blocks).length ≠
      (clusterCentroids COLUMN_TOLERANCE c7Blocks).length - 1 := by
  refine ⟨?_, ?_, ?_, ?_, ?_⟩ <;> with_unfolding_all decide

/-- Witness for C7 (amended) at a concrete two-cluster fragment list:
left edges `0`, `1/25` (one cluster) and `2/5` (a second), giving the
single centroid-midpoint boundary `[11/50]`. -/
theorem C7_witness :
    detect_column_boundaries COLUMN_TOLERANCE
      [⟨"a", 1, 0, 0, 0, 0, 0⟩, ⟨"b", 1, 1 / 25, 0, 1 / 25, 0, 0⟩,
       ⟨"c", 1, 2 / 5, 0, 2 / 5, 0, 0⟩] =
      [((0 + [(1 : ℚ) / 25].sum) / (1 + ([(1 : ℚ) / 25] : List ℚ).length) +
        (2 / 5 + ([] : List ℚ).sum) / (1 + ([] : List ℚ).length)) / 2] :=
  ((C7_column_boundaries_two_cluster_case COLUMN_TOLERANCE
      [⟨"a", 1, 0, 0, 0, 0, 0⟩, ⟨"b", 1, 1 / 25, 0, 1 / 25, 0, 0⟩,
       ⟨"c", 1, 2 / 5, 0, 2 / 5, 0, 0⟩]).2 0 (2 / 5) [1 / 25] []
    (by with_unfolding_all decide) (by with_unfolding_all decide)
    (by with_unfolding_all decide) (by with_unfolding_all decide)).1

/-! ## Claim C9 -/

/-- The blocks of a row that `_get_column_index` assigns to a given
column, in processing order (left to right, since `_group_into_rows`
sorts each row by horizontal center before `_build_table_rows` runs). -/
def assignedTo (boundaries : List ℚ) (col : Nat) (blocks : List TextBlock) :
    List TextBlock :=
  blocks.filter (fun b => get_column_index b.center_x boundaries == col)

/-- Space-separated concatenation of an initial text with the texts of
a block list, in order. -/
def spaceJoined : String → List TextBlock → String
  | t, [] => t
  | t, b :: rest => spaceJoined (t ++ " " ++ b.text) rest

/-- The cell a column accumulates from a block sequence: created from
the first block, then extended block by block exactly as
`_build_table_rows` does. -/
def aggregateCell (row_idx col : Nat) :
    Option TableCell → List TextBlock → Option TableCell
  | acc, [] => acc
  | acc, b :: rest =>
      match acc with
      | none =>
          aggregateCell row_idx col
            (some ⟨b.text, b.confidence, row_idx, col, [b]⟩) rest
      | some c =>
          aggregateCell row_idx col
            (some ⟨c.text ++ " " ++ b.text, c.confidence, c.row, c.column,
              c.blocks ++ [b]⟩) rest

/-- Helper: updating a present key is seen by `lookup`. -/
theorem lookup_updateCell_self (cells : List (Nat × TableCell)) (col : Nat)
    (c : TableCell) (h : (List.lookup col cells).isSome) :
    List.lookup col (updateCell cells col c) = some c := by
  induction cells with
  | nil => simp [List.lookup] at h
  | cons p tl ih =>
      obtain ⟨k, v⟩ := p
      have hmap : updateCell ((k, v) :: tl) col c =
          (if k = col then (col, c) else (k, v)) :: updateCell tl col c := rfl
      by_cases hp : k = col
      · subst hp
        rw [hmap, if_pos rfl]
        simp [List.lookup]
      · rw [hmap, if_neg hp]
        have h1 : (col == k) = false := beq_eq_false_iff_ne.mpr (Ne.symm hp)
        simp only [List.lookup, h1] at h ⊢
        exact ih h

/-- Helper: updating another key is invisible to `lookup`. -/
theorem lookup_updateCell_ne (cells : List (Nat × TableCell))
    (col col' : Nat) (c : TableCell) (h : col ≠ col') :
    List.lookup col (updateCell cells col' c) = List.lookup col cells := by
  induction cells with
  | nil => rfl
  | cons p tl ih =>
      obtain ⟨k, v⟩ := p
      have hmap : updateCell ((k, v) :: tl) col' c =
          (if k = col' then (col', c) else (k, v)) :: updateCell tl col' c :=
        rfl
      rw [hmap]
      by_cases hp : k = col'
      · rw [if_pos hp]
        have h1 : (col == col') = false := beq_eq_false_iff_ne.mpr h
        have h2 : (col == k) = false :=
          beq_eq_false_iff_ne.mpr (by rw [hp]; exact h)
        simp only [List.lookup, h1, h2]
        exact ih
      · rw [if_neg hp]
        simp only [List.lookup]
        rcases hck : (col == k) with _ | _
        · exact ih
        · rfl

/-- Helper: appending an entry for an absent key is found by
`lookup`. -/
theorem lookup_append_single_self (cells : List (Nat × TableCell))
    (col : Nat) (c : TableCell) (h : List.lookup col cells = none) :
    List.lookup col (cells ++ [(col, c)]) = some c := by
  induction cells with
  | nil => simp [List.lookup]
  | cons p tl ih =>
      obtain ⟨k, v⟩ := p
      rcases hck : (col == k) with _ | _
      · simp only [List.lookup, hck] at h
        simp only [List.cons_append, List.lookup, hck]
        exact ih h
      · simp only [List.lookup, hck] at h
        cases h

/-- Helper: appending an entry for another key is invisible to
`lookup`. -/
theorem lookup_append_single_ne (cells : List (Nat × TableCell))
    (col col' : Nat) (c : TableCell) (h : col ≠ col') :
    List.lookup col (cells ++ [(col', c)]) = List.lookup col cells := by
  induction cells with
  | nil =>
      have h1 : (col == col') = false := beq_eq_false_iff_ne.mpr h
      simp [List.lookup, h1]
  | cons p tl ih =>
      obtain ⟨k, v⟩ := p
      simp only [List.cons_append, List.lookup]
      rcases hck : (col == k) with _ | _
      · exact ih
      · rfl

/-- Helper: what the cell-building fold stores under each column key is
exactly the aggregate of the blocks assigned to that column. -/
theorem lookup_build_fold (row_idx : Nat) (bnd : List ℚ)
    (blocks : List TextBlock) (cells : List (Nat × TableCell)) (col : Nat) :
    List.lookup col (blocks.foldl (addBlockToCells row_idx bnd) cells) =
      aggregateCell row_idx col (List.lookup col cells)
        (assignedTo bnd col blocks) := by
  induction blocks generalizing cells with
  | nil => rfl
  | cons b bs ih =>
      rw [List.foldl_cons, ih]
      by_cases hcol : get_column_index b.center_x bnd = col
      · have hb : (get_column_index b.center_x bnd == col) = true :=
          beq_iff_eq.mpr hcol
        have hasg : assignedTo bnd col (b :: bs) =
            b :: assignedTo bnd col bs := by
          simp [assignedTo, List.filter_cons, hb]
        rw [hasg]
        rcases hl : List.lookup col cells with _ | c
        · have hstep : List.lookup col (addBlockToCells row_idx bnd cells b) =
              some ⟨b.text, b.confidence, row_idx, col, [b]⟩ := by
            unfold addBlockToCells
            rw [hcol, hl]
            exact lookup_append_single_self cells col _ hl
          rw [hstep]
          rfl
        · have hstep : List.lookup col (addBlockToCells row_idx bnd cells b) =
              some ⟨c.text ++ " " ++ b.text, c.confidence, c.row, c.column,
                c.blocks ++ [b]⟩ := by
            unfold addBlockToCells
            rw [hcol, hl]
            exact lookup_updateCell_self cells col _ (by simp [hl])
          rw [hstep]
          rfl
      · have hb : (get_column_index b.center_x bnd == col) = false :=
          beq_eq_false_iff_ne.mpr hcol
        have hasg : assignedTo bnd col (b :: bs) = assignedTo bnd col bs := by
          simp [assignedTo, List.filter_cons, hb]
        rw [hasg]
        have hstep : List.lookup col (addBlockToCells row_idx bnd cells b) =
            List.lookup col cells := by
          unfold addBlockToCells
          rcases hl : List.lookup (get_column_index b.center_x bnd) cells
            with _ | c
          · rw [lookup_append_single_ne cells col _ _
              (fun he => hcol he.symm)]
          · rw [lookup_updateCell_ne cells col _ _ (fun he => hcol he.symm)]
        rw [hstep]

/-- Helper: the aggregate of a started cell over further blocks. -/
theorem aggregateCell_some_spec (r c : Nat) (cell : TableCell)
    (rest : List TextBlock) :
    aggregateCell r c (some cell) rest =
      some ⟨spaceJoined cell.text rest, cell.confidence, cell.row,
        cell.column, cell.blocks ++ rest⟩ := by
  induction rest generalizing cell with
  | nil => simp [aggregateCell, spaceJoined]
  | cons b bs ih =>
      show aggregateCell r c
        (some ⟨cell.text ++ " " ++ b.text, cell.confidence, cell.row,
          cell.column, cell.blocks ++ [b]⟩) bs = _
      rw [ih]
      simp [spaceJoined]

/-- C9 (amended): a cell built by `_build_table_rows` holds the texts
of its constituent fragments concatenated in processing (left-to-right)
order separated by single spaces; its `min_confidence` property is the
minimum confidence among those fragments; but its stored `confidence`
attribute is the FIRST fragment's confidence, not that minimum (the
merge branch never updates it). -/
theorem C9_merged_cell_text_and_confidences (row_idx : Nat)
    (bnd : List ℚ) (blocks : List TextBlock) (col : Nat) (cell : TableCell)
    (h : List.lookup col (build_row_cells row_idx bnd blocks) = some cell) :
    ∃ b0 rest, assignedTo bnd col blocks = b0 :: rest ∧
      cell.text = spaceJoined b0.text rest ∧
      cell.blocks = b0 :: rest ∧
      cell.confidence = b0.confidence ∧
      cell.row = row_idx ∧ cell.column = col ∧
      cell.min_confidence =
        rest.foldl (fun acc b => min acc b.confidence) b0.confidence := by
  unfold build_row_cells at h
  rw [lookup_build_fold row_idx bnd blocks [] col] at h
  rcases hasg : assignedTo bnd col blocks with _ | ⟨b0, rest⟩
  · rw [hasg] at h
    cases h
  · rw [hasg] at h
    have h2 : aggregateCell row_idx col
        (some ⟨b0.text, b0.confidence, row_idx, col, [b0]⟩) rest =
        some cell := h
    rw [aggregateCell_some_spec] at h2
    cases Option.some.inj h2
    exact ⟨b0, rest, rfl, rfl, by simp, rfl, rfl, rfl, by
      show TableCell.min_confidence _ = _
      simp [TableCell.min_confidence]⟩

/-- The two co-located fragments of the C9 counterexample. -/
def c9BlockA : TextBlock := ⟨"A", 9 / 10, 1 / 10, 0, 1 / 10, 0, 0⟩

/-- The second, lower-confidence fragment of the C9 counterexample. -/
def c9BlockB : TextBlock := ⟨"B", 1 / 2, 3 / 20, 0, 3 / 20, 0, 0⟩

/-- The merged cell those two fragments produce. -/
def c9Cell : TableCell := ⟨"A B", 9 / 10, 0, 0, [c9BlockA, c9BlockB]⟩

/-- Counterexample for C9 as frozen: two fragments with confidences
`0.9` and `0.5` merged into one cell give a cell whose `confidence`
attribute is `0.9`, the first fragment's — not the minimum `0.5` the
claim asserts (`min_confidence`, a separate property, does hold the
minimum). -/
theorem C9_counterexample :
    List.lookup 0 (build_row_cells 0 [] [c9BlockA, c9BlockB]) =
      some c9Cell ∧
    c9Cell.text = "A B" ∧
    c9Cell.confidence = 9 / 10 ∧
    c9Cell.min_confidence = 1 / 2 ∧
    c9Cell.confidence ≠ c9Cell.min_confidence := by
  refine ⟨?_, ?_, ?_, ?_, ?_⟩ <;> with_unfolding_all decide

/-- Witness for C9 (amended) at the concrete two-fragment row. -/
theorem C9_witness :
    ∃ b0 rest, assignedTo [] 0 [c9BlockA, c9BlockB] = b0 :: rest ∧
      c9Cell.text = spaceJoined b0.text rest ∧
      c9Cell.blocks = b0 :: rest ∧
      c9Cell.confidence = b0.confidence ∧
      c9Cell.row = 0 ∧ c9Cell.column = 0 ∧
      c9Cell.min_confidence =
        rest.foldl (fun acc b => min acc b.confidence) b0.confidence :=
  C9_merged_cell_text_and_confidences 0 [] [c9BlockA, c9BlockB] 0 c9Cell
    (by with_unfolding_all decide)

/-! ## Claim C5 -/

/-- Helper: sorting three strings is invariant under the rotation
`(a, b, c) ↦ (c, a, b)`: both sorts are sorted permutations of the same
multiset, and string order is antisymmetric. -/
theorem pySorted_rotate (a b c : String) :
    pySorted [a, b, c] = pySorted [c, a, b] := by
  refine @List.eq_of_perm_of_sorted String (· ≤ ·) _ _ _ ?_ ?_ ?_
  · refine ((List.perm_insertionSort _ _).trans ?_).trans
      (List.perm_insertionSort (· ≤ ·) [c, a, b]).symm
    exact @List.perm_append_comm String [a, b] [c]
  · exact List.sorted_insertionSort _ _
  · exact List.sorted_insertionSort _ _

/-- C5: for any three strings carrying the `"sha256:"` format,
`compute_bundle_hash` is invariant under rotating its arguments
`(a, b, c) ↦ (c, a, b)`, and the result is `"sha256:"` followed by the
lowercase hex SHA-256 digest of the three inputs sorted lexicographically
and joined with `"|"`. -/
theorem C5_bundle_hash_order_independent (a b c : String)
    (ha : a.startsWith "sha256:" = true)
    (hb : b.startsWith "sha256:" = true)
    (hc : c.startsWith "sha256:" = true) :
    compute_bundle_hash a b c = compute_bundle_hash c a b ∧
    compute_bundle_hash a b c =
      .ok ("sha256:" ++ sha256Hex (utf8Encode
        (String.intercalate "|" (pySorted [a, b, c])))) := by
  refine ⟨?_, ?_⟩
  · simp only [compute_bundle_hash, ha, hb, hc, not_true_eq_false, if_false]
    rw [pySorted_rotate]
  · simp only [compute_bundle_hash, ha, hb, hc, not_true_eq_false, if_false]

/-- Witness for C5 at three concrete hashes. -/
theorem C5_witness :
    compute_bundle_hash "sha256:b" "sha256:a" "sha256:c" =
      compute_bundle_hash "sha256:c" "sha256:b" "sha256:a" :=
  (C5_bundle_hash_order_independent "sha256:b" "sha256:a" "sha256:c"
    (by with_unfolding_all decide) (by with_unfolding_all decide)
    (by with_unfolding_all decide)).1

/-! ## Claim C8 -/

/-- Helper: `pyMaxBy` returns the initial element or a list element. -/
theorem pyMaxBy_mem {α β : Type} [LinearOrder β] (key : α → β) (best : α)
    (l : List α) : pyMaxBy key best l = best ∨ pyMaxBy key best l ∈ l := by
  induction l generalizing best with
  | nil => exact Or.inl rfl
  | cons x rest ih =>
      rw [pyMaxBy]
      by_cases hx : key x > key best
      · rw [if_pos hx]
        rcases ih x with h | h
        · exact Or.inr (by rw [h]; exact List.mem_cons_self x rest)
        · exact Or.inr (List.mem_cons_of_mem x h)
      · rw [if_neg hx]
        rcases ih best with h | h
        · exact Or.inl h
        · exact Or.inr (List.mem_cons_of_mem x h)

/-- Helper: `pyMaxBy` dominates the initial element and every list
element in key order. -/
theorem pyMaxBy_ge {α β : Type} [LinearOrder β] (key : α → β) (best : α)
    (l : List α) :
    key best ≤ key (pyMaxBy key best l) ∧
    ∀ x ∈ l, key x ≤ key (pyMaxBy key best l) := by
  induction l generalizing best with
  | nil => exact ⟨le_refl _, by simp⟩
  | cons x rest ih =>
      rw [pyMaxBy]
      by_cases hx : key x > key best
      · rw [if_pos hx]
        obtain ⟨h1, h2⟩ := ih x
        refine ⟨le_trans (le_of_lt hx) h1, ?_⟩
        intro y hy
        rcases List.mem_cons.mp hy with rfl | hy2
        · exact h1
        · exact h2 y hy2
      · rw [if_neg hx]
        obtain ⟨h1, h2⟩ := ih best
        refine ⟨h1, ?_⟩
        intro y hy
        rcases List.mem_cons.mp hy with rfl | hy2
        · exact le_trans (not_lt.mp hx) h1
        · exact h2 y hy2

/-- Helper: every candidate collected at base confidence `conf`
carries exactly that confidence. -/
theorem collectAmounts_confidence (conf : ℚ) (text : List Char) :
    ∀ x ∈ collectAmounts conf text, x.2.1 = conf := by
  intro x hx
  simp only [collectAmounts, List.mem_flatMap, List.mem_filterMap] at hx
  obtain ⟨p, _, raw, _, hparse⟩ := hx
  rcases hm : parseAmountRaw raw with _ | amount
  · rw [hm] at hparse
    cases hparse
  · rw [hm] at hparse
    have hparse2 : (if amount > 0 then some (amount, conf, raw) else none) =
        some x := hparse
    by_cases hpos : amount > 0
    · rw [if_pos hpos] at hparse2
      cases hparse2
      rfl
    · rw [if_neg hpos] at hparse2
      cases hparse2

/-- Helper: every labelled candidate carries confidence `0.95`. -/
theorem scoredAmounts_confidence (text : List Char) (labels : List String) :
    ∀ x ∈ scoredAmounts text labels, x.2.1 = 95 / 100 := by
  intro x hx
  simp only [scoredAmounts, List.mem_flatMap] at hx
  obtain ⟨label, _, hmem⟩ := hx
  rcases hf : findIdxSub (pyLower label).data (text.map Char.toLower)
    with _ | pos
  · rw [hf] at hmem
    cases hmem
  · rw [hf] at hmem
    exact collectAmounts_confidence (95 / 100) _ x hmem

/-- C8: `extract_amount` scores labelled window candidates at `0.95`
and document-wide candidates at `0.85`; with labelled candidates
present, `prefer_largest` selects the labelled candidate of maximum
value and the plain mode a highest-confidence labelled candidate, both
at confidence `0.95`; with none, it falls back to the largest
document-wide amount at confidence `0.6`.  In particular, on the
document `"Total: S$1,234.56"` with label list `["total"]` it yields
`1234.56` at confidence `0.95 ≥ 0.85`. -/
theorem C8_extract_amount_scoring_and_selection
    (full_text : String) (labels : List String) :
    (∀ x ∈ collectAmounts (85 / 100) full_text.data, x.2.1 = 85 / 100) ∧
    (∀ x ∈ scoredAmounts full_text.data labels, x.2.1 = 95 / 100) ∧
    (∀ (pl : Bool) a0 arest s0 srest,
      collectAmounts (85 / 100) full_text.data = a0 :: arest →
      scoredAmounts full_text.data labels = s0 :: srest →
      (extract_amount full_text labels pl).confidence = 95 / 100 ∧
      (∃ x ∈ scoredAmounts full_text.data labels,
        (extract_amount full_text labels pl).value = x.1) ∧
      (pl = true → ∀ x ∈ scoredAmounts full_text.data labels,
        x.1 ≤ (extract_amount full_text labels pl).value)) ∧
    (∀ (pl : Bool) a0 arest,
      collectAmounts (85 / 100) full_text.data = a0 :: arest →
      scoredAmounts full_text.data labels = [] →
      (extract_amount full_text labels pl).confidence = 6 / 10 ∧
      (∃ x ∈ collectAmounts (85 / 100) full_text.data,
        (extract_amount full_text labels pl).value = x.1) ∧
      (∀ x ∈ collectAmounts (85 / 100) full_text.data,
        x.1 ≤ (extract_amount full_text labels pl).value)) ∧
    extract_amount "Total: S$1,234.56" ["total"] false =
      ⟨1234 + 56 / 100, 95 / 100, none, some "1,234.56"⟩ := by
  refine ⟨collectAmounts_confidence _ _, scoredAmounts_confidence _ _,
    ?_, ?_, by with_unfolding_all rfl⟩
  · intro pl a0 arest s0 srest hcol hsc
    have hmem : ∀ (key : (ℚ × ℚ × String) → ℚ),
        pyMaxBy key s0 srest ∈ scoredAmounts full_text.data labels := by
      intro key
      rw [hsc]
      rcases pyMaxBy_mem key s0 srest with h | h
      · rw [h]
        exact List.mem_cons_self s0 srest
      · exact List.mem_cons_of_mem s0 h
    have hred : extract_amount full_text labels pl =
        if pl then
          ⟨(pyMaxBy (fun x => x.1) s0 srest).1,
            (pyMaxBy (fun x => x.1) s0 srest).2.1, none,
            some (pyMaxBy (fun x => x.1) s0 srest).2.2⟩
        else
          ⟨(pyMaxBy (fun x => x.2.1) s0 srest).1,
            (pyMaxBy (fun x => x.2.1) s0 srest).2.1, none,
            some (pyMaxBy (fun x => x.2.1) s0 srest).2.2⟩ := by
      unfold extract_amount
      rw [hcol, hsc]
    cases pl with
    | true =>
        rw [hred, if_pos rfl]
        refine ⟨scoredAmounts_confidence _ _ _ (hmem _), ?_, ?_⟩
        · exact ⟨pyMaxBy (fun x => x.1) s0 srest, hmem _, rfl⟩
        · intro _ x hx
          rw [hsc] at hx
          rcases List.mem_cons.mp hx with h | hx2
          · rw [h]
            exact (pyMaxBy_ge (fun x => x.1) s0 srest).1
          · exact (pyMaxBy_ge (fun x => x.1) s0 srest).2 x hx2
    | false =>
        rw [hred, if_neg (by simp)]
        refine ⟨scoredAmounts_confidence _ _ _ (hmem _), ?_, ?_⟩
        · exact ⟨pyMaxBy (fun x => x.2.1) s0 srest, hmem _, rfl⟩
        · intro hfalse
          cases hfalse
  · intro pl a0 arest hcol hsc
    have hred : extract_amount full_text labels pl =
        ⟨(pyMaxBy (fun x => x.1) a0 arest).1, 6 / 10, none,
          some (pyMaxBy (fun x => x.1) a0 arest).2.2⟩ := by
      unfold extract_amount
      rw [hcol, hsc]
    rw [hred]
    refine ⟨rfl, ?_, ?_⟩
    · refine ⟨pyMaxBy (fun x => x.1) a0 arest, ?_, rfl⟩
      rw [hcol]
      rcases pyMaxBy_mem (fun x => x.1) a0 arest with h | h
      · rw [h]
        exact List.mem_cons_self a0 arest
      · exact List.mem_cons_of_mem a0 h
    · intro x hx
      rw [hcol] at hx
      rcases List.mem_cons.mp hx with h | hx2
      · rw [h]
        exact (pyMaxBy_ge (fun x => x.1) a0 arest).1
      · exact (pyMaxBy_ge (fun x => x.1) a0 arest).2 x hx2

/-- Witness for C8: the scored branch applied at the concrete
document, each hypothesis discharged by computation. -/
theorem C8_witness :
    (extract_amount "Total: S$1,234.56" ["total"] true).confidence =
      95 / 100 ∧
    (∃ x ∈ scoredAmounts "Total: S$1,234.56".data ["total"],
      (extract_amount "Total: S$1,234.56" ["total"] true).value = x.1) ∧
    (true = true → ∀ x ∈ scoredAmounts "Total: S$1,234.56".data ["total"],
      x.1 ≤ (extract_amount "Total: S$1,234.56" ["total"] true).value) :=
  (C8_extract_amount_scoring_and_selection "Total: S$1,234.56"
      ["total"]).2.2.1 true
    ((30864 : ℚ)/25, (17 : ℚ)/20, "1,234.56")
    [((30864 : ℚ)/25, (17 : ℚ)/20, "1,234.56"),
     ((30864 : ℚ)/25, (17 : ℚ)/20, "1,234.56"),
     ((30864 : ℚ)/25, (17 : ℚ)/20, "1,234.56")]
    ((30864 : ℚ)/25, (19 : ℚ)/20, "1,234.56")
    [((30864 : ℚ)/25, (19 : ℚ)/20, "1,234.56"),
     ((30864 : ℚ)/25, (19 : ℚ)/20, "1,234.56"),
     ((30864 : ℚ)/25, (19 : ℚ)/20, "1,234.56")]
    (by with_unfolding_all rfl) (by with_unfolding_all rfl)

/-! ## Claim C10 -/

/-- Helper: the unsigned `Decimal` grammar only produces non-negative
values. -/
theorem pyDecimalCore_nonneg {cs : List Char} {q : ℚ}
    (h : pyDecimalCore cs = some q) : 0 ≤ q := by
  unfold pyDecimalCore at h
  split at h
  · split at h
    · cases h
    · cases h
      positivity
  · split at h
    · cases h
      positivity
    · cases h
  · cases h

/-- Helper: with no leading minus sign, `pySign` reports sign `1`. -/
theorem pySign_fst_eq_one {cs : List Char} (h : ∀ c ∈ cs, c ≠ '-') :
    (pySign cs).1 = 1 := by
  cases cs with
  | nil => rfl
  | cons c t =>
      have hc := h c (List.mem_cons_self c t)
      simp only [pySign, if_neg hc]
      split <;> rfl

/-- Helper: `Decimal` parsing of a string without a minus sign never
yields a negative value. -/
theorem pyDecimal_nonneg {s : String} {q : ℚ}
    (hn : ∀ c ∈ s.data, c ≠ '-') (h : pyDecimal s = some q) : 0 ≤ q := by
  unfold pyDecimal at h
  rcases hcore : pyDecimalCore (pySign s.data).2 with _ | v
  · rw [hcore] at h
    cases h
  · rw [hcore] at h
    simp only [Option.map_some'] at h
    cases h
    rw [pySign_fst_eq_one hn, one_mul]
    exact pyDecimalCore_nonneg hcore

/-- Helper: a character of a filtered list satisfies the filter
predicate, stated over the string constructor so the underlying list
stays opaque. -/
theorem mem_mk_filter {c : Char} {p : Char → Bool} {L : List Char}
    (h : c ∈ (String.mk (L.filter p)).data) : p c = true :=
  (List.mem_filter.mp h).2

/-- Helper: after the final cleaning step of `normalize_amount` only
digits and the decimal point remain. -/
theorem amountCleaned_chars (text : String) :
    ∀ c ∈ (amountCleaned text).data, c.isDigit ∨ c = '.' := by
  intro c hc
  rw [amountCleaned] at hc
  have := mem_mk_filter hc
  simpa using this

/-- C10: the value of the field returned by `normalize_amount` is never
negative — the final cleaning step removes every character other than
digits and the decimal point (any minus sign included) before parsing,
so the `"Negative amount detected"` soft-error branch is unreachable
for all inputs. -/
theorem C10_normalize_amount_value_never_negative (text : String)
    (confidence : ℚ) (bounding_box : Option BoundingBox) :
    "Negative amount detected" ∉ normalize_amount_errors text ∧
    (∀ f, normalize_amount text confidence bounding_box = .ok f →
      0 ≤ f.value) := by
  have key : ∀ q, pyDecimal (amountCleaned text) = some q → 0 ≤ q := by
    intro q hq
    refine pyDecimal_nonneg ?_ hq
    intro c hc hminus
    rcases amountCleaned_chars text c hc with h | h
    · rw [hminus] at h
      exact absurd h (by decide)
    · rw [hminus] at h
      exact absurd h (by decide)
  have hval : (0 : ℚ) ≤ amountValue text := by
    rw [amountValue]
    rcases hp : pyDecimal (amountCleaned text) with _ | v
    · simp
    · simp only [Option.getD_some]
      exact key v hp
  constructor
  · unfold normalize_amount_errors
    rcases hp : pyDecimal (amountCleaned text) with _ | v
    · decide
    · dsimp only
      rw [if_neg (not_lt.mpr (key v hp))]
      split
      · decide
      · decide
  · intro f hf
    rw [normalize_amount] at hf
    revert hf
    revert hval
    generalize amountValue text = v0
    intro hval hf
    rw [mkExtractedField] at hf
    split at hf
    · cases hf
      exact hval
    · cases hf

/-- Witness for C10: the input `"-1,234.56"` has its minus sign removed
by the cleaning step, and the resulting field value `1234.56` is
non-negative. -/
theorem C10_witness :
    "Negative amount detected" ∉ normalize_amount_errors "-1,234.56" ∧
    (0 : ℚ) ≤ 1234 + 56 / 100 := by
  constructor
  · exact (C10_normalize_amount_value_never_negative "-1,234.56" 1 none).1
  · have := (C10_normalize_amount_value_never_negative "-1,234.56" 1 none).2
      ⟨1234 + 56 / 100, 1, none, some "-1,234.56"⟩ (by with_unfolding_all rfl)
    simpa using this

end EULA
